import Mathlib

/-!
TomTom cardio watch reader: the device protocol engine.

A shallow embedding of `extract_files.cc`: the class `TomTomWatch` with the command
channel `SendCommand`, the directory enumeration `ReadDirectory`, the chunked file
transfer `ReadFile` and `CloseFile`, and their callers `ReadFiles` and `main`.

Conventions of the embedding.

* Bytes (`uint8_t`) and 32-bit words are natural numbers; every place where the
  C++ code narrows or wraps carries an explicit `%`.
* The USB transport (`libusb_interrupt_transfer`) is an external collaborator.
  It is modelled by a `Device`: for the `n`-th exchange of the session it says
  what the OUT transfer reports (status, bytes transferred) and what the IN
  transfer reports (status, bytes received).  Theorems quantify over every
  `Device`, so every behaviour of the watch and of the bus is covered.
* The object state is `counter_` together with a log of the transfers that were
  performed, which is what "sends", "no I/O" and "no further command" are
  stated about.
* Where the C++ code would read outside the 64-byte buffer the model stops with
  `Fault.overrun`; a loop that has not finished when its fuel is used up stops
  with `Fault.fuel`. Both carry the object state reached at that point.
-/

namespace TomTom

/-- The struct `TomTomFile`: both fields are `uint32_t`. -/
structure TomTomFile where
  id : Nat
  length : Nat
deriving DecidableEq

/-- What libusb reports for one command/reply exchange: status and byte count of the
OUT transfer on endpoint 0x05, status and received bytes of the IN transfer on
endpoint 0x84. -/
structure Xfer where
  wstatus : Int
  wtransferred : Int
  rstatus : Int
  rx : List Nat
deriving DecidableEq

/-- The transport: outcome of the `n`-th exchange of the session. -/
abbrev Device := Nat → Xfer

/-- One call of `libusb_interrupt_transfer`: an OUT transfer with the buffer and the
length handed to it, or an IN transfer with the buffer capacity handed to it. -/
inductive UsbEvent where
  | out (data : List Nat) (length : Nat)
  | inp (capacity : Nat)
deriving DecidableEq

/-- State of a `TomTomWatch` object: the member `counter_`, the number of exchanges
started so far (the index into the `Device`) and the transfers performed. -/
structure Watch where
  counter : Nat
  xfers : Nat
  log : List UsbEvent
deriving DecidableEq

/-- Ways in which a run of the model stops without a C++ result, each with the object
state reached at that point: `overrun` is a read past the end of the 64-byte buffer
`data` (undefined behaviour in C++), `fuel` is a loop still running when the fuel of
the model is used up. -/
inductive Fault where
  | overrun (s : Watch)
  | fuel (s : Watch)
deriving DecidableEq

/-- The object state at which a run stopped. -/
def Fault.state : Fault → Watch
  | Fault.overrun s => s
  | Fault.fuel s => s

/-- The object state after a call, whether it returned or stopped with a fault. -/
def stateAfter {α : Type} : Except Fault (Bool × Watch × α) → Watch
  | .ok (_, s, _) => s
  | .error f => f.state

instance instDecidableEqExcept {ε α : Type} [DecidableEq ε] [DecidableEq α] :
    DecidableEq (Except ε α) := fun a b =>
  match a, b with
  | .ok x, .ok y => if h : x = y then isTrue (by rw [h]) else isFalse (fun e => h (by cases e; rfl))
  | .error x, .error y =>
    if h : x = y then isTrue (by rw [h]) else isFalse (fun e => h (by cases e; rfl))
  | .ok _, .error _ => isFalse (fun e => by cases e)
  | .error _, .ok _ => isFalse (fun e => by cases e)

/-- A freshly constructed `TomTomWatch` (`counter_ = 0`), nothing transferred yet. -/
def Watch.fresh : Watch := ⟨0, 0, []⟩

/-- The call `memcpy(dst + off, src, src.size())`. -/
def memcpy (dst : List Nat) (off : Nat) (src : List Nat) : List Nat :=
  dst.take off ++ src ++ dst.drop (off + src.length)

/-- Lines 133-137 of `SendCommand`: the buffer `data` once the outgoing frame is built;
`counter` is the value of `counter_` after `++counter_`. -/
def outFrame (command : List Nat) (counter : Nat) : List Nat :=
  let data := List.replicate 64 0
  let data := data.set 0 9
  let data := data.set 1 (command.length % 256)
  let data := data.set 2 counter
  memcpy data 3 command

/-- The IN transfer `libusb_interrupt_transfer(device(), 0x84, data, 64, ...)`: at most
64 bytes are received, they overwrite the front of `data`, the rest of the buffer
keeps what it held. Returns the buffer and `transferred`. -/
def interruptIn (data : List Nat) (rx : List Nat) : List Nat × Int :=
  let got := rx.take 64
  (memcpy data 0 got, (got.length : Int))

/-- The method `TomTomWatch::SendCommand(command, reply)`. The result is the returned
`bool`, the object state afterwards and the caller's `reply` vector afterwards. -/
def SendCommand (dev : Device) (s : Watch) (command reply : List Nat) :
    Except Fault (Bool × Watch × List Nat) :=
  if command.length > 60 then
    .ok (false, s, reply)
  else
    let counter := (s.counter + 1) % 256
    let data := outFrame command counter
    let x := dev s.xfers
    let s1 : Watch := ⟨counter, s.xfers + 1, s.log ++ [UsbEvent.out data (3 + command.length)]⟩
    if x.wstatus ≠ 0 ∨ x.wtransferred ≠ 3 + (data.getD 1 0 : Int) then
      .ok (false, s1, reply)
    else
      let s2 : Watch := ⟨counter, s.xfers + 1, s1.log ++ [UsbEvent.inp 64]⟩
      let r := interruptIn data x.rx
      let data := r.1
      let transferred := r.2
      if x.rstatus ≠ 0 then
        .ok (false, s2, reply)
      else if transferred < 2 ∨ (data.getD 1 0 : Int) > transferred + 3 ∨ data.getD 0 0 ≠ 1 ∨
          data.getD 2 0 ≠ counter then
        .ok (false, s2, reply)
      else if 3 + data.getD 1 0 > 64 then
        .error (Fault.overrun s2)
      else
        .ok (true, s2, (data.drop 3).take (data.getD 1 0))

/-- The buffer `data` of `SendCommand` after the IN transfer: the received bytes in
front, behind them what is left of the outgoing frame. -/
def rxData (command : List Nat) (counter : Nat) (rx : List Nat) : List Nat :=
  (interruptIn (outFrame command counter) rx).1

/-- The exchange `x` makes `SendCommand` return `true` and hand back `r`, when `command`
is sent with counter byte `counter`: both transfers report success, the write count
matches, the test of line 154 lets the reply through and the copy of line 160 stays
inside the buffer. -/
def Accepted (x : Xfer) (command : List Nat) (counter : Nat) (r : List Nat) : Prop :=
  x.wstatus = 0 ∧ x.wtransferred = 3 + ((outFrame command counter).getD 1 0 : Int) ∧
  x.rstatus = 0 ∧
  ¬ ((interruptIn (outFrame command counter) x.rx).2 < 2 ∨
      ((rxData command counter x.rx).getD 1 0 : Int) >
        (interruptIn (outFrame command counter) x.rx).2 + 3 ∨
      (rxData command counter x.rx).getD 0 0 ≠ 1 ∨
      (rxData command counter x.rx).getD 2 0 ≠ counter) ∧
  ¬ (3 + (rxData command counter x.rx).getD 1 0 > 64) ∧
  r = ((rxData command counter x.rx).drop 3).take ((rxData command counter x.rx).getD 1 0)

instance instDecidableAccepted (x : Xfer) (command : List Nat) (counter : Nat) (r : List Nat) :
    Decidable (Accepted x command counter r) := by
  unfold Accepted
  infer_instance

/-- The object state after an exchange that ran through both transfers. -/
def Watch.exchanged (s : Watch) (command : List Nat) : Watch :=
  ⟨(s.counter + 1) % 256, s.xfers + 1,
    s.log ++ [UsbEvent.out (outFrame command ((s.counter + 1) % 256)) (3 + command.length)] ++
      [UsbEvent.inp 64]⟩

/-- Two's-complement value of a 32-bit pattern: the `int` the compiler works with. -/
def wrapInt32 (x : Int) : Int := (x + 2147483648) % 4294967296 - 2147483648

/-- Conversion of an `int` to `uint32_t`. -/
def toUInt32 (x : Int) : Nat := (x % 4294967296).toNat

/-- The expression `(r[a] << 24) + (r[a+1] << 16) + (r[a+2] << 8) + r[a+3]` stored into a
`uint32_t`: the bytes are promoted to `int`, shifted and added as `int` (32-bit, two's
complement), and the sum is converted to `uint32_t`. -/
def be32 (r : List Nat) (a : Nat) : Nat :=
  let b0 : Int := r.getD a 0
  let b1 : Int := r.getD (a + 1) 0
  let b2 : Int := r.getD (a + 2) 0
  let b3 : Int := r.getD (a + 3) 0
  let t0 := wrapInt32 (b0 * 2 ^ 24)
  let t1 := wrapInt32 (b1 * 2 ^ 16)
  let t2 := wrapInt32 (b2 * 2 ^ 8)
  toUInt32 (wrapInt32 (wrapInt32 (wrapInt32 (t0 + t1) + t2) + b3))

/-- Lines 187-192 of `ReadDirectory`: the `TomTomFile` built from a 22-byte reply. -/
def decodeEntry (reply : List Nat) : TomTomFile :=
  { length := be32 reply 13, id := be32 reply 6 }

/-- The command that initiates the file enumeration. -/
def ReadFirst : List Nat := [0x11, 0x00, 0x00, 0x00, 0x00, 0x00, 0x00, 0x00, 0x00, 0x00]

/-- The command that is repeated until byte 20 of the reply is 1. -/
def ReadNext : List Nat := [0x12, 0x00]

/-- The `for` loop of `ReadDirectory` with `todo = 1000 - i` iterations left; `reply` is
the local vector that every `SendCommand` of the loop is handed. -/
def ReadDirectory.loop (dev : Device) :
    Nat → Watch → List Nat → List TomTomFile → Except Fault (Bool × Watch × List TomTomFile)
  | 0, s, _, files => .ok (true, s, files)
  | todo + 1, s, reply, files =>
    match SendCommand dev s ReadNext reply with
    | .error f => .error f
    | .ok (ok, s1, reply1) =>
      if ok = false ∨ reply1.length ≠ 22 then
        .ok (false, s1, files)
      else if reply1.getD 20 0 = 1 then
        .ok (true, s1, files)
      else
        ReadDirectory.loop dev todo s1 reply1 (files ++ [decodeEntry reply1])

/-- The method `TomTomWatch::ReadDirectory(files)`: returned `bool`, object state and the
caller's `files` vector afterwards. -/
def ReadDirectory (dev : Device) (s : Watch) (_files : List TomTomFile) :
    Except Fault (Bool × Watch × List TomTomFile) :=
  match SendCommand dev s ReadFirst [] with
  | .error f => .error f
  | .ok (ok, s1, reply) =>
    if ok = false then
      .ok (false, s1, [])
    else
      ReadDirectory.loop dev 1000 s1 reply []

/-- Lines 208-211: a six- or ten-byte command with the file id stored big-endian in
bytes 2..5; each store narrows to `uint8_t`. -/
def setId (cmd : List Nat) (id : Nat) : List Nat :=
  (((cmd.set 2 ((id >>> 24) % 256)).set 3 ((id >>> 16) &&& 0xFF)).set 4
    ((id >>> 8) &&& 0xFF)).set 5 (id &&& 0xFF)

/-- The vector `open_file1` once the id is stored. -/
def open_file1 (id : Nat) : List Nat := setId [0x06, 0x00, 0x91, 0x00, 0x01, 0x00] id

/-- The vector `open_file2` once the id is stored. -/
def open_file2 (id : Nat) : List Nat := setId [0x05, 0x00, 0x91, 0x00, 0x01, 0x00] id

/-- The vector `read_command` once the id is stored (byte 7 is set in the loop). -/
def read_command (id : Nat) : List Nat :=
  setId [0x07, 0x00, 0x00, 0x00, 0x00, 0x00, 0x00, 0x00, 0x32, 0x00] id

/-- The constant `kMaxReadSize`. -/
def kMaxReadSize : Nat := 0x32

/-- The `for` loop of `ReadFile` (lines 222-238): `pos` is the `uint32_t` loop variable,
`cmd` the vector `read_command`, `reply` the local reply vector, `data` the caller's
output vector. One unit of fuel is used per iteration. -/
def ReadFile.loop (dev : Device) (file : TomTomFile) :
    Nat → Watch → List Nat → List Nat → List Nat → Nat → Except Fault (Bool × Watch × List Nat)
  | 0, s, _, _, data, pos =>
    if pos < file.length then .error (Fault.fuel s) else .ok (true, s, data)
  | fuel + 1, s, reply, cmd, data, pos =>
    if pos < file.length then
      let l := min kMaxReadSize ((file.length - pos) % 4294967296)
      let cmd1 := cmd.set 7 (l &&& 0xFF)
      match SendCommand dev s cmd1 reply with
      | .error f => .error f
      | .ok (ok, s1, reply1) =>
        if ok = false then
          .ok (false, s1, data)
        else if reply1.length < 9 ∨ reply1.getD 8 0 ≠ l then
          .ok (false, s1, data)
        else
          ReadFile.loop dev file fuel s1 reply1 cmd1 (data ++ reply1.drop 9)
            ((pos + kMaxReadSize) % 4294967296)
    else
      .ok (true, s, data)

/-- The method `TomTomWatch::ReadFile(from, data)`: returned `bool`, object state and the
caller's `data` vector afterwards. `fuel` bounds the number of loop iterations. -/
def ReadFile (fuel : Nat) (dev : Device) (s : Watch) (file : TomTomFile) (data : List Nat) :
    Except Fault (Bool × Watch × List Nat) :=
  match SendCommand dev s (open_file1 file.id) [] with
  | .error f => .error f
  | .ok (ok1, s1, reply1) =>
    if ok1 = false then
      .ok (false, s1, data)
    else
      match SendCommand dev s1 (open_file2 file.id) reply1 with
      | .error f => .error f
      | .ok (ok2, s2, reply2) =>
        if ok2 = false then
          .ok (false, s2, data)
        else
          ReadFile.loop dev file fuel s2 reply2 (read_command file.id) data 0

/-- The payloads of the commands written so far, oldest first: for every OUT transfer
the bytes `data[3 .. length)` that were handed to the transport. -/
def sentCommands (log : List UsbEvent) : List (List Nat) :=
  log.filterMap fun e =>
    match e with
    | UsbEvent.out data length => some ((data.take length).drop 3)
    | UsbEvent.inp _ => none

/-- The buffers of the OUT transfers performed so far, oldest first. -/
def sentFrames (log : List UsbEvent) : List (List Nat) :=
  log.filterMap fun e =>
    match e with
    | UsbEvent.out data _ => some data
    | UsbEvent.inp _ => none

/-- A client that calls `SendCommand` once for each of the given commands, in order,
each time with an empty reply vector: the object state at the end, or the fault at
which the run stopped. -/
def session (dev : Device) : Watch → List (List Nat) → Except Fault Watch
  | s, [] => .ok s
  | s, c :: cs =>
    match SendCommand dev s c [] with
    | .error f => .error f
    | .ok (_, s1, _) => session dev s1 cs

/-- The commands of a list that fit into a frame (at most 60 bytes), in order. -/
def sendable (cmds : List (List Nat)) : List (List Nat) :=
  cmds.filter fun c => decide (c.length ≤ 60)

/-- The object state a session ended in. -/
def sessionState : Except Fault Watch → Watch
  | .ok s => s
  | .error f => f.state

/-- A device that answers every command with the 3-byte frame `01 00 09`. -/
def wrongCounterDevice : Device := fun _ => ⟨0, 5, 0, [1, 0, 9]⟩

/-- A device that reports 7 bytes written and answers with the 4-byte frame
`01 04 01 07`: declared reply length 4, one reply byte on the wire. -/
def staleDevice : Device := fun _ => ⟨0, 7, 0, [1, 4, 1, 7]⟩

/-- A device that reports 7 bytes written and answers with the 3-byte frame
`01 02 01`: declared reply length 2, no reply byte on the wire. -/
def shortDevice : Device := fun _ => ⟨0, 7, 0, [1, 2, 1]⟩

/-- A 22-byte directory reply for the examples: the top and the low byte of the id at
offsets 6 and 9, the low byte of the length at offset 16, the end marker at offset 20. -/
def dirEntry (idTop idLow lenLow last : Nat) : List Nat :=
  [0, 0, 0, 0, 0, 0, idTop, 0, 0, idLow, 0, 0, 0, 0, 0, 0, lenLow, 0, 0, 0, last, 0]

/-- The replies of `dirDevice` to the next-entry commands: two entries, then the end. -/
def dirReply (j : Nat) : List Nat := dirEntry 0x91 j (10 + j) (if j = 2 then 1 else 0)

/-- A device holding two files: it answers the first command with an empty reply and the
next-entry command number `j` with `dirReply j`, each in a well-formed frame. -/
def dirDevice : Device := fun n =>
  if n = 0 then ⟨0, 13, 0, [1, 0, 1]⟩
  else ⟨0, 5, 0, [1, 22, (n + 1) % 256] ++ dirReply (n - 1)⟩

/-- The reply of `chunkDevice` to a read of `l` bytes: 8 header bytes, the count `l`
at offset 8, then `l` data bytes. -/
def chunkReply (l : Nat) : List Nat := List.replicate 8 0 ++ [l] ++ List.replicate l 7

/-- A device holding a 130-byte file: it answers the two open commands with an empty
reply and the read commands with chunks of 50, 50 and 30 bytes, each in a well-formed
frame. -/
def chunkDevice : Device := fun n =>
  if n < 2 then ⟨0, 9, 0, [1, 0, (n + 1) % 256]⟩
  else ⟨0, 13, 0, [1, 9 + min 50 (130 - 50 * (n - 2)), (n + 1) % 256] ++
    chunkReply (min 50 (130 - 50 * (n - 2)))⟩

/-- The exchange `x` makes `SendCommand` return `false`, when `command` is sent with
counter byte `counter`: a transfer reports an error, the write count does not match, or
the test of line 154 turns the reply down. -/
def Rejected (x : Xfer) (command : List Nat) (counter : Nat) : Prop :=
  x.wstatus ≠ 0 ∨ x.wtransferred ≠ 3 + ((outFrame command counter).getD 1 0 : Int) ∨
  x.rstatus ≠ 0 ∨
  (interruptIn (outFrame command counter) x.rx).2 < 2 ∨
  ((rxData command counter x.rx).getD 1 0 : Int) >
    (interruptIn (outFrame command counter) x.rx).2 + 3 ∨
  (rxData command counter x.rx).getD 0 0 ≠ 1 ∨
  (rxData command counter x.rx).getD 2 0 ≠ counter

instance instDecidableRejected (x : Xfer) (command : List Nat) (counter : Nat) :
    Decidable (Rejected x command counter) := by
  unfold Rejected
  infer_instance

/-- The vector `close_file` of `CloseFile` once the id is stored. -/
def close_file (id : Nat) : List Nat := setId [0x0C, 0x00, 0x00, 0x00, 0x00, 0x00] id

/-- The method `TomTomWatch::CloseFile(id)`: returned `bool` and object state. -/
def CloseFile (dev : Device) (s : Watch) (id : Nat) : Except Fault (Bool × Watch × Unit) :=
  match SendCommand dev s (close_file id) [] with
  | .error f => .error f
  | .ok (ok, s1, _) =>
    if ok = false then
      .ok (false, s1, ())
    else
      .ok (true, s1, ())

/-- The range-based `for` loop of `ReadFiles` (lines 284-325) over the files still to be
visited. `disk file data` says whether `fopen` and `fwrite` succeed for that file; the
third component of the result lists the files written so far with their contents. The
choice of the file name has no influence on the control flow and is left out. -/
def ReadFiles.loop (fuel : Nat) (dev : Device) (disk : TomTomFile → List Nat → Bool)
    (extract_all : Bool) :
    List TomTomFile → Watch → List (TomTomFile × List Nat) →
      Except Fault (Bool × Watch × List (TomTomFile × List Nat))
  | [], s, written => .ok (true, s, written)
  | file :: rest, s, written =>
    if extract_all = false ∧ (file.id &&& 0xFF000000) ≠ 0x91000000 then
      ReadFiles.loop fuel dev disk extract_all rest s written
    else
      match ReadFile fuel dev s file [] with
      | .error f => .error f
      | .ok (ok, s1, data) =>
        if ok = false then
          .ok (false, s1, written)
        else
          match CloseFile dev s1 file.id with
          | .error f => .error f
          | .ok (_, s2, _) =>
            if disk file data = false then
              .ok (false, s2, written)
            else
              ReadFiles.loop fuel dev disk extract_all rest s2 (written ++ [(file, data)])

/-- The function `ReadFiles(vid, pid, extract_all)`: `opened` is the result of
`device.Open(vid, pid)`, the `TomTomWatch` object is freshly constructed. The two string
descriptor requests are control transfers outside the command channel and are left out. -/
def ReadFiles (opened : Bool) (fuel : Nat) (dev : Device) (disk : TomTomFile → List Nat → Bool)
    (extract_all : Bool) : Except Fault (Bool × Watch × List (TomTomFile × List Nat)) :=
  if opened = false then
    .ok (false, Watch.fresh, [])
  else
    match ReadDirectory dev Watch.fresh [] with
    | .error f => .error f
    | .ok (ok, s1, files) =>
      if ok = false then
        .ok (false, s1, [])
      else
        ReadFiles.loop fuel dev disk extract_all files s1 []

/-- The function `main` for a command line that `getopt_long` accepts: `all` says whether
`--all` was given, which sets `transfer_all_files` to 1. The call of line 363 passes the
literal `false`. The result is what that call of `ReadFiles` returns; `main` itself
discards it and returns 0. The options `--vid` and `--pid` only choose the device that
is opened. -/
def main (all : Bool) (opened : Bool) (fuel : Nat) (dev : Device)
    (disk : TomTomFile → List Nat → Bool) :
    Except Fault (Bool × Watch × List (TomTomFile × List Nat)) :=
  let _transfer_all_files : Int := if all then 1 else 0
  ReadFiles opened fuel dev disk false

/-- A device that reports 5 bytes written and answers with a full 64-byte frame whose
declared reply length is 62. -/
def overlongDevice : Device := fun _ => ⟨0, 5, 0, [1, 62, 1] ++ List.replicate 61 0⟩

/-- A device that reports 5 bytes written and answers with the 2-byte frame `01 00`. -/
def twoByteDevice : Device := fun _ => ⟨0, 5, 0, [1, 0]⟩

/-- The replies of `truncDevice` to the next-entry commands: a 22-byte entry, then 21
bytes. -/
def truncReply (j : Nat) : List Nat :=
  if j = 0 then dirEntry 0x91 1 11 0 else List.replicate 21 0

/-- A device whose second next-entry reply is one byte short: it answers the first
command with an empty reply, the first next-entry command with a 22-byte entry and the
second one with a 21-byte reply, each in a well-formed frame. -/
def truncDevice : Device := fun n =>
  if n = 0 then ⟨0, 13, 0, [1, 0, 1]⟩
  else if n = 1 then ⟨0, 5, 0, [1, 22, 2] ++ dirEntry 0x91 1 11 0⟩
  else ⟨0, 5, 0, [1, 21, (n + 1) % 256] ++ List.replicate 21 0⟩

/-- A device that never ends the directory: it answers every command with the same
22-byte entry, whose byte 20 is 0, in a well-formed frame. -/
def endlessDevice : Device := fun n =>
  ⟨0, if n = 0 then 13 else 5, 0, 1 :: (dirEntry 0x91 0 0 0).length :: ((n + 1) % 256) ::
    dirEntry 0x91 0 0 0⟩

/-- A device holding a 130-byte file whose second chunk is mislabelled: it answers the
two open commands with an empty reply, the first read with a 50-byte chunk and every
later read with a chunk whose byte 8 says 49, each in a well-formed frame. -/
def badChunkDevice : Device := fun n =>
  if n < 2 then ⟨0, 9, 0, [1, 0, (n + 1) % 256]⟩
  else if n = 2 then ⟨0, 13, 0, [1, 59, 3] ++ chunkReply 50⟩
  else ⟨0, 13, 0, [1, 58, (n + 1) % 256] ++ chunkReply 49⟩

/-- The replies of `badChunkDevice` to the read commands. -/
def badChunkReply (j : Nat) : List Nat := if j = 0 then chunkReply 50 else chunkReply 49

/-- A device whose directory holds the one file `0x91000001` of 130 bytes and which then
turns down the first open: it answers the first command with an empty reply, the first
next-entry command with the entry, the second one with the end marker, and every later
command with a frame that carries the counter byte 0. -/
def failOpenDevice : Device := fun n =>
  if n = 0 then ⟨0, 13, 0, [1, 0, 1]⟩
  else if n = 1 then ⟨0, 5, 0, [1, 22, 2] ++ dirEntry 0x91 1 130 0⟩
  else if n = 2 then ⟨0, 5, 0, [1, 22, 3] ++ dirEntry 0 0 0 1⟩
  else ⟨0, 9, 0, [1, 0, 0]⟩

/-- A device whose directory holds the one file `0x91000001` of 130 bytes and whose
second chunk is mislabelled: the directory exchanges are those of `failOpenDevice`, both
opens get an empty reply, the first read a 50-byte chunk and every later command a chunk
whose byte 8 says 49, each in a well-formed frame. -/
def failChunkDevice : Device := fun n =>
  if n = 0 then ⟨0, 13, 0, [1, 0, 1]⟩
  else if n = 1 then ⟨0, 5, 0, [1, 22, 2] ++ dirEntry 0x91 1 130 0⟩
  else if n = 2 then ⟨0, 5, 0, [1, 22, 3] ++ dirEntry 0 0 0 1⟩
  else if n < 5 then ⟨0, 9, 0, [1, 0, (n + 1) % 256]⟩
  else if n = 5 then ⟨0, 13, 0, [1, 59, 6] ++ chunkReply 50⟩
  else ⟨0, 13, 0, [1, 58, (n + 1) % 256] ++ chunkReply 49⟩

/-- A 22-byte directory entry for the record `{id: 0x91000001, length: 0}`. -/
def emptyFileEntry : List Nat := dirEntry 0x91 1 0 0

/-- A device whose directory replies are the entry `emptyFileEntry` followed by the end
marker; it answers the first command and every command after the directory with an
empty reply, each in a well-formed frame. -/
def emptyFileDevice : Device := fun n =>
  if n = 0 then ⟨0, 13, 0, [1, 0, 1]⟩
  else if n = 1 then ⟨0, 5, 0, [1, 22, 2] ++ emptyFileEntry⟩
  else if n = 2 then ⟨0, 5, 0, [1, 22, 3] ++ dirEntry 0 0 0 1⟩
  else ⟨0, 9, 0, [1, 0, (n + 1) % 256]⟩

/-- A device whose directory holds the one file `0x12000001` (of 0 bytes), followed by
the end marker; it answers every other command with an empty reply, each in a
well-formed frame. -/
def otherFileDevice : Device := fun n =>
  if n = 0 then ⟨0, 13, 0, [1, 0, 1]⟩
  else if n = 1 then ⟨0, 5, 0, [1, 22, 2] ++ dirEntry 0x12 1 0 0⟩
  else if n = 2 then ⟨0, 5, 0, [1, 22, 3] ++ dirEntry 0 0 0 1⟩
  else ⟨0, 9, 0, [1, 0, (n + 1) % 256]⟩

/-- A disk on which every file can be created and written. -/
def goodDisk : TomTomFile → List Nat → Bool := fun _ _ => true

/-- The size of the chunk number `j` of a file of `0xFFFFFFFF` bytes, with the offset
`50 j` taken modulo `2^32`. -/
def wrapChunk (j : Nat) : Nat := min 50 (4294967295 - (50 * j) % 4294967296)

/-- A device that accepts both opens and answers the read number `j` with a chunk of
`wrapChunk j` bytes, labelled with that size, in a well-formed frame. -/
def wrapDevice : Device := fun n =>
  if n < 2 then ⟨0, 9, 0, [1, 0, (n + 1) % 256]⟩
  else ⟨0, 13, 0, 1 :: (chunkReply (wrapChunk (n - 2))).length :: ((n + 1) % 256) ::
    chunkReply (wrapChunk (n - 2))⟩

/-! Auxiliary lemmas. -/

theorem outFrame_eq (command : List Nat) (c : Nat) :
    outFrame command c =
      [9, command.length % 256, c] ++ command ++ List.replicate (61 - command.length) 0 := by
  have h : ((((List.replicate 64 0).set 0 9).set 1 (command.length % 256)).set 2 c)
      = [9, command.length % 256, c] ++ List.replicate 61 0 := rfl
  have h3 : ([9, command.length % 256, c] ++ List.replicate 61 0).drop (3 + command.length)
      = List.replicate (61 - command.length) 0 := by
    have e := @List.drop_append Nat [9, command.length % 256, c]
      (List.replicate 61 0) command.length
    rw [List.drop_replicate] at e
    exact e
  have h4 : ([9, command.length % 256, c] ++ List.replicate 61 0).take 3
      = [9, command.length % 256, c] := rfl
  unfold outFrame memcpy
  simp only [h, h3, h4]

theorem outFrame_length (command : List Nat) (c : Nat) (h : command.length ≤ 60) :
    (outFrame command c).length = 64 := by
  rw [outFrame_eq]
  simp
  omega

theorem SendCommand_long (dev : Device) (s : Watch) (command reply : List Nat)
    (h : 60 < command.length) : SendCommand dev s command reply = .ok (false, s, reply) := by
  unfold SendCommand
  simp [h]

theorem SendCommand_accepted (dev : Device) (s : Watch) (command reply r : List Nat)
    (h : command.length ≤ 60) (ha : Accepted (dev s.xfers) command ((s.counter + 1) % 256) r) :
    SendCommand dev s command reply = .ok (true, s.exchanged command, r) := by
  obtain ⟨h1, h2, h3, h4, h5, h6⟩ := ha
  have hn : ¬ (command.length > 60) := by omega
  unfold SendCommand
  simp only [hn, if_false]
  unfold rxData at h4 h5 h6
  simp only [h1, h2, h3, ne_eq, not_true_eq_false, false_or, if_false, h4, h5, ← h6]
  rfl

theorem SendCommand_state (dev : Device) (s : Watch) (command reply : List Nat)
    (h : command.length ≤ 60) :
    (stateAfter (SendCommand dev s command reply)).counter = (s.counter + 1) % 256 ∧
    (stateAfter (SendCommand dev s command reply)).xfers = s.xfers + 1 ∧
    ∃ rest, (stateAfter (SendCommand dev s command reply)).log =
      s.log ++ UsbEvent.out (outFrame command ((s.counter + 1) % 256)) (3 + command.length)
        :: rest ∧ (rest = [] ∨ rest = [UsbEvent.inp 64]) := by
  have hn : ¬ (command.length > 60) := by omega
  unfold SendCommand
  simp only [hn, if_false]
  split
  · exact ⟨rfl, rfl, [], rfl, Or.inl rfl⟩
  · split
    · exact ⟨rfl, rfl, [UsbEvent.inp 64], by simp [stateAfter], Or.inr rfl⟩
    · split
      · exact ⟨rfl, rfl, [UsbEvent.inp 64], by simp [stateAfter], Or.inr rfl⟩
      · split
        · exact ⟨rfl, rfl, [UsbEvent.inp 64], by simp [stateAfter, Fault.state], Or.inr rfl⟩
        · exact ⟨rfl, rfl, [UsbEvent.inp 64], by simp [stateAfter], Or.inr rfl⟩

theorem SendCommand_false (dev : Device) (s s1 : Watch) (command reply r : List Nat)
    (h : SendCommand dev s command reply = .ok (false, s1, r)) : r = reply := by
  unfold SendCommand at h
  split at h
  · simp at h; exact h.2.symm
  · dsimp only at h
    split at h
    · simp at h; exact h.2.symm
    · split at h
      · simp at h; exact h.2.symm
      · split at h
        · simp at h; exact h.2.symm
        · split at h <;> simp at h

theorem outFrame_payload (command : List Nat) (c : Nat) :
    ((outFrame command c).take (3 + command.length)).drop 3 = command := by
  rw [outFrame_eq]
  have e : [9, command.length % 256, c] ++ command ++ List.replicate (61 - command.length) 0
      = ([9, command.length % 256, c] ++ command) ++ List.replicate (61 - command.length) 0 := rfl
  rw [e, List.take_left' (by simp; omega)]
  rfl

theorem sentCommands_append (l1 l2 : List UsbEvent) :
    sentCommands (l1 ++ l2) = sentCommands l1 ++ sentCommands l2 := by
  simp [sentCommands, List.filterMap_append]

theorem sentCommands_exchanged (s : Watch) (command : List Nat) :
    sentCommands (s.exchanged command).log = sentCommands s.log ++ [command] := by
  unfold Watch.exchanged
  simp only [sentCommands_append]
  simp [sentCommands, outFrame_payload]

theorem ReadDirectory_loop_run (dev : Device) :
    ∀ (k todo : Nat) (s : Watch) (reply : List Nat) (files : List TomTomFile)
      (r : Nat → List Nat),
      k < todo →
      (∀ j, j ≤ k → Accepted (dev (s.xfers + j)) ReadNext ((s.counter + j + 1) % 256) (r j) ∧
        (r j).length = 22) →
      (∀ j, j < k → (r j).getD 20 0 ≠ 1) →
      (r k).getD 20 0 = 1 →
      ∃ s1, ReadDirectory.loop dev todo s reply files =
          .ok (true, s1, files ++ (List.range k).map (fun j => decodeEntry (r j))) ∧
        s1.xfers = s.xfers + k + 1 ∧
        sentCommands s1.log = sentCommands s.log ++ List.replicate (k + 1) ReadNext := by
  intro k
  induction k with
  | zero =>
    intro todo s reply files r htodo hacc _ hlast
    obtain ⟨t, rfl⟩ : ∃ t, todo = t + 1 := ⟨todo - 1, by omega⟩
    obtain ⟨ha, hl⟩ := hacc 0 (le_refl _)
    have hsend := SendCommand_accepted dev s ReadNext reply (r 0) (by decide) ha
    refine ⟨s.exchanged ReadNext, ?_, rfl, ?_⟩
    · rw [ReadDirectory.loop, hsend]
      simp only [hl, hlast, ne_eq, not_true_eq_false, or_self, if_false, if_true,
        Bool.true_eq_false, List.range_zero, List.map_nil, List.append_nil]
    · rw [sentCommands_exchanged]
      rfl
  | succ k ih =>
    intro todo s reply files r htodo hacc hne hlast
    obtain ⟨t, rfl⟩ : ∃ t, todo = t + 1 := ⟨todo - 1, by omega⟩
    obtain ⟨ha, hl⟩ := hacc 0 (Nat.zero_le _)
    have hsend := SendCommand_accepted dev s ReadNext reply (r 0) (by decide) ha
    have h0 : (r 0).getD 20 0 ≠ 1 := hne 0 (Nat.succ_pos _)
    have hacc1 : ∀ j, j ≤ k →
        Accepted (dev ((s.exchanged ReadNext).xfers + j)) ReadNext
          (((s.exchanged ReadNext).counter + j + 1) % 256) (r (j + 1)) ∧
        (r (j + 1)).length = 22 := by
      intro j hj
      obtain ⟨hb, hc⟩ := hacc (j + 1) (by omega)
      have e1 : (s.exchanged ReadNext).xfers + j = s.xfers + (j + 1) := by
        simp only [Watch.exchanged]; omega
      have e2 : ((s.exchanged ReadNext).counter + j + 1) % 256 = (s.counter + (j + 1) + 1) % 256 := by
        simp only [Watch.exchanged]; omega
      rw [e1, e2]
      exact ⟨hb, hc⟩
    obtain ⟨s1, hrun, hx, hsent⟩ := ih t (s.exchanged ReadNext) (r 0)
      (files ++ [decodeEntry (r 0)]) (fun j => r (j + 1)) (by omega) hacc1
      (fun j hj => hne (j + 1) (by omega)) hlast
    refine ⟨s1, ?_, ?_, ?_⟩
    · rw [ReadDirectory.loop, hsend]
      simp only [hl, h0, ne_eq, not_true_eq_false, or_self, if_false, Bool.true_eq_false]
      rw [hrun, List.range_succ_eq_map]
      simp [Function.comp]
    · rw [hx]; simp only [Watch.exchanged]; omega
    · rw [hsent, sentCommands_exchanged]
      simp [List.replicate_succ]

theorem getD_lt_of_bytes (r : List Nat) (hb : ∀ b ∈ r, b < 256) (i : Nat) :
    r.getD i 0 < 256 := by
  rw [List.getD_eq_getElem?_getD]
  cases h : r[i]? with
  | none => simp
  | some b => exact hb b (List.getElem?_mem h)

theorem wrapInt32_id (x : Int) (h1 : -2147483648 ≤ x) (h2 : x < 2147483648) :
    wrapInt32 x = x := by
  unfold wrapInt32; omega

theorem wrapInt32_top (b : Nat) (h : b < 256) :
    wrapInt32 ((b : Int) * 2 ^ 24) =
      if b < 128 then (b : Int) * 16777216 else (b : Int) * 16777216 - 4294967296 := by
  unfold wrapInt32
  split <;> omega

theorem toUInt32_nat (n : Nat) (h : n < 4294967296) : toUInt32 (n : Int) = n := by
  unfold toUInt32; omega

theorem toUInt32_neg (n : Nat) (h : n < 4294967296) :
    toUInt32 ((n : Int) - 4294967296) = n := by
  unfold toUInt32; omega

theorem be32_sum (b0 b1 b2 b3 : Nat) (h0 : b0 < 256) (h1 : b1 < 256) (h2 : b2 < 256)
    (h3 : b3 < 256) :
    toUInt32 (wrapInt32 (wrapInt32 (wrapInt32 (wrapInt32 ((b0 : Int) * 2 ^ 24) +
      wrapInt32 ((b1 : Int) * 2 ^ 16)) + wrapInt32 ((b2 : Int) * 2 ^ 8)) + (b3 : Int)))
      = b0 * 2 ^ 24 + b1 * 2 ^ 16 + b2 * 2 ^ 8 + b3 := by
  rw [wrapInt32_top b0 h0, wrapInt32_id ((b1 : Int) * 2 ^ 16) (by omega) (by omega),
    wrapInt32_id ((b2 : Int) * 2 ^ 8) (by omega) (by omega)]
  split
  · rw [wrapInt32_id ((b0 : Int) * 16777216 + (b1 : Int) * 2 ^ 16) (by omega) (by omega),
      wrapInt32_id ((b0 : Int) * 16777216 + (b1 : Int) * 2 ^ 16 + (b2 : Int) * 2 ^ 8)
        (by omega) (by omega),
      wrapInt32_id _ (by omega) (by omega)]
    have e := toUInt32_nat (b0 * 2 ^ 24 + b1 * 2 ^ 16 + b2 * 2 ^ 8 + b3) (by omega)
    rw [← e]
    congr 1
  · rw [wrapInt32_id ((b0 : Int) * 16777216 - 4294967296 + (b1 : Int) * 2 ^ 16)
        (by omega) (by omega),
      wrapInt32_id ((b0 : Int) * 16777216 - 4294967296 + (b1 : Int) * 2 ^ 16 + (b2 : Int) * 2 ^ 8)
        (by omega) (by omega),
      wrapInt32_id _ (by omega) (by omega)]
    have e := toUInt32_neg (b0 * 2 ^ 24 + b1 * 2 ^ 16 + b2 * 2 ^ 8 + b3) (by omega)
    rw [← e]
    congr 1
    push_cast
    ring

theorem be32_eq (r : List Nat) (hb : ∀ b ∈ r, b < 256) (a : Nat) :
    be32 r a = r.getD a 0 * 2 ^ 24 + r.getD (a + 1) 0 * 2 ^ 16 + r.getD (a + 2) 0 * 2 ^ 8 +
      r.getD (a + 3) 0 :=
  be32_sum _ _ _ _ (getD_lt_of_bytes r hb a) (getD_lt_of_bytes r hb (a + 1))
    (getD_lt_of_bytes r hb (a + 2)) (getD_lt_of_bytes r hb (a + 3))

theorem land_255_of_le (l : Nat) (h : l ≤ 50) : l &&& 0xFF = l := by
  have key : ∀ n, n ≤ 50 → n &&& 0xFF = n := by decide
  exact key l h

theorem ReadFile_loop_run (dev : Device) (file : TomTomFile)
    (hL : file.length + 50 ≤ 4294967296) :
    ∀ (n fuel : Nat) (s : Watch) (reply cmd data : List Nat) (pos : Nat) (r : Nat → List Nat),
      n ≤ fuel → file.length ≤ pos + 50 * n → pos + 50 * n < file.length + 50 →
      cmd.length = 10 →
      (∀ j, j < n →
        Accepted (dev (s.xfers + j)) (cmd.set 7 (min 50 (file.length - (pos + 50 * j))))
          ((s.counter + j + 1) % 256) (r j) ∧
        9 ≤ (r j).length ∧ (r j).getD 8 0 = min 50 (file.length - (pos + 50 * j))) →
      ∃ s1, ReadFile.loop dev file fuel s reply cmd data pos =
          .ok (true, s1, data ++ ((List.range n).map (fun j => (r j).drop 9)).flatten) ∧
        s1.xfers = s.xfers + n ∧
        sentCommands s1.log = sentCommands s.log ++
          (List.range n).map (fun j => cmd.set 7 (min 50 (file.length - (pos + 50 * j)))) := by
  intro n
  induction n with
  | zero =>
    intro fuel s reply cmd data pos r _ hle _ _ _
    have hp : ¬ (pos < file.length) := by omega
    refine ⟨s, ?_, rfl, by simp⟩
    cases fuel <;> simp [ReadFile.loop, hp]
  | succ n ih =>
    intro fuel s reply cmd data pos r hfuel hle hlt hcmd hacc
    obtain ⟨f, rfl⟩ : ∃ f, fuel = f + 1 := ⟨fuel - 1, by omega⟩
    have hp : pos < file.length := by omega
    have hl : min kMaxReadSize ((file.length - pos) % 4294967296) = min 50 (file.length - pos) := by
      rw [Nat.mod_eq_of_lt (by omega)]; rfl
    have hland : min 50 (file.length - pos) &&& 0xFF = min 50 (file.length - pos) :=
      land_255_of_le _ (Nat.min_le_left _ _)
    obtain ⟨ha, h9, h8⟩ := hacc 0 (Nat.succ_pos _)
    simp only [Nat.mul_zero, Nat.add_zero] at ha h9 h8
    have hsend := SendCommand_accepted dev s (cmd.set 7 (min 50 (file.length - pos))) reply (r 0)
      (by rw [List.length_set]; omega) ha
    have hpos : (pos + kMaxReadSize) % 4294967296 = pos + 50 := by
      rw [Nat.mod_eq_of_lt (by unfold kMaxReadSize; omega)]; rfl
    have hacc1 : ∀ j, j < n →
        Accepted (dev ((s.exchanged (cmd.set 7 (min 50 (file.length - pos)))).xfers + j))
          ((cmd.set 7 (min 50 (file.length - pos))).set 7
            (min 50 (file.length - (pos + 50 + 50 * j))))
          (((s.exchanged (cmd.set 7 (min 50 (file.length - pos)))).counter + j + 1) % 256)
          (r (j + 1)) ∧
        9 ≤ (r (j + 1)).length ∧
        (r (j + 1)).getD 8 0 = min 50 (file.length - (pos + 50 + 50 * j)) := by
      intro j hj
      obtain ⟨hb, hc, hd⟩ := hacc (j + 1) (by omega)
      have e1 : (s.exchanged (cmd.set 7 (min 50 (file.length - pos)))).xfers + j
          = s.xfers + (j + 1) := by
        simp only [Watch.exchanged]; omega
      have e2 : ((s.exchanged (cmd.set 7 (min 50 (file.length - pos)))).counter + j + 1) % 256
          = (s.counter + (j + 1) + 1) % 256 := by
        simp only [Watch.exchanged]; omega
      have e3 : pos + 50 + 50 * j = pos + 50 * (j + 1) := by omega
      rw [e1, e2, e3, List.set_set]
      exact ⟨hb, hc, hd⟩
    obtain ⟨s1, hrun, hx, hsent⟩ := ih f (s.exchanged (cmd.set 7 (min 50 (file.length - pos))))
      (r 0) (cmd.set 7 (min 50 (file.length - pos))) (data ++ (r 0).drop 9) (pos + 50)
      (fun j => r (j + 1)) (by omega) (by omega) (by omega) (by rw [List.length_set]; exact hcmd)
      hacc1
    refine ⟨s1, ?_, ?_, ?_⟩
    · rw [ReadFile.loop]
      simp only [hp, if_true, hl, hland, hsend, Bool.true_eq_false, if_false, hpos]
      rw [if_neg (by rw [h8]; omega), hrun, List.range_succ_eq_map]
      simp only [List.map_cons, List.map_map, List.flatten_cons, List.append_assoc]
      rfl
    · rw [hx]; simp only [Watch.exchanged]; omega
    · rw [hsent, sentCommands_exchanged, List.range_succ_eq_map]
      simp only [List.map_cons, List.map_map, List.append_assoc, List.singleton_append,
        Nat.mul_zero, Nat.add_zero, List.set_set]
      congr 2
      apply List.map_congr_left
      intro j _
      simp only [Function.comp, Nat.succ_eq_add_one]
      congr 3
      omega

theorem chunkReply_shape (l : Nat) :
    (chunkReply l).length = 9 + l ∧ (chunkReply l).getD 8 0 = l := by
  constructor
  · simp [chunkReply]; omega
  · simp [chunkReply]

theorem sentFrames_step (log : List UsbEvent) (data : List Nat) (n : Nat) (rest : List UsbEvent)
    (h : rest = [] ∨ rest = [UsbEvent.inp 64]) :
    sentFrames (log ++ UsbEvent.out data n :: rest) = sentFrames log ++ [data] := by
  rcases h with h | h <;> subst h <;> simp [sentFrames, List.filterMap_append]

theorem session_frames (dev : Device) : ∀ (cmds : List (List Nat)) (s : Watch),
    ∃ m, m ≤ (sendable cmds).length ∧
      (sessionState (session dev s cmds)).xfers = s.xfers + m ∧
      sentFrames (sessionState (session dev s cmds)).log = sentFrames s.log ++
        (List.range m).map
          (fun k => outFrame ((sendable cmds).getD k []) ((s.counter + k + 1) % 256)) ∧
      (∀ u, session dev s cmds = .ok u → m = (sendable cmds).length) := by
  intro cmds
  induction cmds with
  | nil =>
    intro s
    exact ⟨0, le_refl _, rfl, by simp [session, sessionState], fun _ _ => rfl⟩
  | cons c cs ih =>
    intro s
    by_cases hc : c.length ≤ 60
    · have hf : sendable (c :: cs) = c :: sendable cs := by
        simp [sendable, List.filter_cons, hc]
      obtain ⟨h1, h2, rest, h3, h4⟩ := SendCommand_state dev s c [] hc
      cases hres : SendCommand dev s c [] with
      | error f =>
        rw [hres] at h1 h2 h3
        simp only [stateAfter] at h1 h2 h3
        refine ⟨1, by rw [hf]; simp, ?_, ?_, ?_⟩
        · simp [session, hres, sessionState, h2]
        · simp only [session, hres, sessionState, h3]
          rw [sentFrames_step _ _ _ _ h4, hf]
          have e1 : List.range 1 = [0] := rfl
          rw [e1]
          simp
        · intro u hu
          simp [session, hres] at hu
      | ok v =>
        obtain ⟨b, s1, r⟩ := v
        rw [hres] at h1 h2 h3
        simp only [stateAfter] at h1 h2 h3
        obtain ⟨m, hm1, hm2, hm3, hm4⟩ := ih s1
        have hs : session dev s (c :: cs) = session dev s1 cs := by simp [session, hres]
        refine ⟨m + 1, by rw [hf]; simp; omega, ?_, ?_, ?_⟩
        · rw [hs, hm2, h2]; omega
        · rw [hs, hm3, h3, sentFrames_step _ _ _ _ h4, List.range_succ_eq_map, h1, hf]
          simp only [List.map_cons, List.map_map, List.append_assoc, List.singleton_append,
            List.getD_cons_zero, Nat.zero_add]
          congr 2
          apply List.map_congr_left
          intro k _
          simp only [Function.comp, List.getD_cons_succ]
          congr 1
          omega
        · intro u hu
          rw [hs] at hu
          rw [hf]
          simp [hm4 u hu]
    · have hf : sendable (c :: cs) = sendable cs := by
        simp [sendable, List.filter_cons, hc]
      have hs : session dev s (c :: cs) = session dev s cs := by
        simp [session, SendCommand_long dev s c [] (by omega)]
      rw [hs, hf]
      exact ih s

theorem sentCommands_step (log : List UsbEvent) (command : List Nat) (c : Nat)
    (rest : List UsbEvent) (h : rest = [] ∨ rest = [UsbEvent.inp 64]) :
    sentCommands (log ++ UsbEvent.out (outFrame command c) (3 + command.length) :: rest) =
      sentCommands log ++ [command] := by
  rcases h with h | h <;> subst h <;>
    simp [sentCommands, List.filterMap_append, outFrame_payload]

theorem SendCommand_sent (dev : Device) (s : Watch) (command reply : List Nat)
    (h : command.length ≤ 60) :
    sentCommands (stateAfter (SendCommand dev s command reply)).log =
      sentCommands s.log ++ [command] := by
  obtain ⟨_, _, rest, h3, h4⟩ := SendCommand_state dev s command reply h
  rw [h3, sentCommands_step _ _ _ _ h4]

theorem outFrame_getD_one (command : List Nat) (c : Nat) (h : command.length ≤ 60) :
    (outFrame command c).getD 1 0 = command.length := by
  rw [outFrame_eq]
  simp [Nat.mod_eq_of_lt (show command.length < 256 by omega)]

theorem SendCommand_rejected (dev : Device) (s : Watch) (command reply : List Nat)
    (h : command.length ≤ 60)
    (hrej : Rejected (dev s.xfers) command ((s.counter + 1) % 256)) :
    ∃ s1, SendCommand dev s command reply = .ok (false, s1, reply) ∧
      s1.xfers = s.xfers + 1 ∧ s1.counter = (s.counter + 1) % 256 ∧
      sentCommands s1.log = sentCommands s.log ++ [command] := by
  have hn : ¬ (command.length > 60) := by omega
  have hsent := SendCommand_sent dev s command reply h
  obtain ⟨hc, hx, _⟩ := SendCommand_state dev s command reply h
  have key : ∃ s1, SendCommand dev s command reply = .ok (false, s1, reply) := by
    unfold SendCommand
    simp only [hn, if_false]
    unfold Rejected rxData at hrej
    by_cases hw : (dev s.xfers).wstatus ≠ 0 ∨ (dev s.xfers).wtransferred ≠
        3 + ((outFrame command ((s.counter + 1) % 256)).getD 1 0 : Int)
    · rw [if_pos hw]; exact ⟨_, rfl⟩
    · rw [if_neg hw]
      by_cases hr : (dev s.xfers).rstatus ≠ 0
      · rw [if_pos hr]; exact ⟨_, rfl⟩
      · rw [if_neg hr, if_pos]
        · exact ⟨_, rfl⟩
        · rcases hrej with h1 | h1 | h1 | h1
          · exact absurd (Or.inl h1) hw
          · exact absurd (Or.inr h1) hw
          · exact absurd h1 hr
          · exact h1
  obtain ⟨s1, hs1⟩ := key
  rw [hs1] at hsent hc hx
  exact ⟨s1, hs1, hx, hc, hsent⟩

theorem rxData_frame (c : List Nat) (ctr : Nat) (p : List Nat) (a b : Nat)
    (hlen : p.length ≤ 61) :
    rxData c ctr (a :: p.length :: b :: p) =
        a :: p.length :: b :: (p ++ (outFrame c ctr).drop (p.length + 3)) ∧
      (interruptIn (outFrame c ctr) (a :: p.length :: b :: p)).2 = (p.length : Int) + 3 := by
  have ht : (a :: p.length :: b :: p).take 64 = a :: p.length :: b :: p :=
    List.take_of_length_le (by simp; omega)
  unfold rxData interruptIn memcpy
  simp only [ht]
  constructor
  · simp
  · simp
    omega

theorem Accepted_of_frame (x : Xfer) (c : List Nat) (ctr : Nat) (p : List Nat)
    (hc : c.length ≤ 60) (hlen : p.length ≤ 61) (hw : x.wstatus = 0)
    (hwt : x.wtransferred = 3 + (c.length : Int)) (hr : x.rstatus = 0)
    (hrx : x.rx = 1 :: p.length :: ctr :: p) : Accepted x c ctr p := by
  obtain ⟨hd, ht⟩ := rxData_frame c ctr p 1 ctr hlen
  unfold Accepted
  rw [hrx, hd, ht, outFrame_getD_one c ctr hc]
  refine ⟨hw, hwt, hr, ?_, ?_, ?_⟩
  · simp
    omega
  · simp
    omega
  · simp

theorem ReadDirectory_loop_prefix (dev : Device) :
    ∀ (k todo : Nat) (s : Watch) (reply : List Nat) (files : List TomTomFile)
      (r : Nat → List Nat),
      k ≤ todo →
      (∀ j, j < k → Accepted (dev (s.xfers + j)) ReadNext ((s.counter + j + 1) % 256) (r j) ∧
        (r j).length = 22 ∧ (r j).getD 20 0 ≠ 1) →
      ∃ sk replyk, ReadDirectory.loop dev todo s reply files =
          ReadDirectory.loop dev (todo - k) sk replyk
            (files ++ (List.range k).map (fun j => decodeEntry (r j))) ∧
        sk.xfers = s.xfers + k ∧ sk.counter % 256 = (s.counter + k) % 256 ∧
        sentCommands sk.log = sentCommands s.log ++ List.replicate k ReadNext := by
  intro k
  induction k with
  | zero =>
    intro todo s reply files r _ _
    exact ⟨s, reply, by simp, rfl, rfl, by simp⟩
  | succ k ih =>
    intro todo s reply files r htodo hacc
    obtain ⟨t, rfl⟩ : ∃ t, todo = t + 1 := ⟨todo - 1, by omega⟩
    obtain ⟨ha, hl, h0⟩ := hacc 0 (Nat.succ_pos _)
    have hsend := SendCommand_accepted dev s ReadNext reply (r 0) (by decide) ha
    have hacc1 : ∀ j, j < k →
        Accepted (dev ((s.exchanged ReadNext).xfers + j)) ReadNext
          (((s.exchanged ReadNext).counter + j + 1) % 256) (r (j + 1)) ∧
        (r (j + 1)).length = 22 ∧ (r (j + 1)).getD 20 0 ≠ 1 := by
      intro j hj
      obtain ⟨hb, hc, hd⟩ := hacc (j + 1) (by omega)
      have e1 : (s.exchanged ReadNext).xfers + j = s.xfers + (j + 1) := by
        simp only [Watch.exchanged]; omega
      have e2 : ((s.exchanged ReadNext).counter + j + 1) % 256 = (s.counter + (j + 1) + 1) % 256 := by
        simp only [Watch.exchanged]; omega
      rw [e1, e2]
      exact ⟨hb, hc, hd⟩
    obtain ⟨sk, replyk, hrun, hx, hctr, hsent⟩ := ih t (s.exchanged ReadNext) (r 0)
      (files ++ [decodeEntry (r 0)]) (fun j => r (j + 1)) (by omega) hacc1
    refine ⟨sk, replyk, ?_, ?_, ?_, ?_⟩
    · rw [ReadDirectory.loop, hsend]
      simp only [hl, h0, ne_eq, not_true_eq_false, or_self, if_false, Bool.true_eq_false]
      rw [hrun, List.range_succ_eq_map, Nat.add_sub_add_right]
      simp only [List.map_cons, List.map_map, List.append_assoc, List.singleton_append]
      rfl
    · rw [hx]; simp only [Watch.exchanged]; omega
    · rw [hctr]; simp only [Watch.exchanged]; omega
    · rw [hsent, sentCommands_exchanged]
      simp [List.replicate_succ]

theorem ReadDirectory_loop_bound (dev : Device) :
    ∀ (todo : Nat) (s : Watch) (reply : List Nat) (files : List TomTomFile),
      ∃ ext, sentCommands (stateAfter (ReadDirectory.loop dev todo s reply files)).log =
          sentCommands s.log ++ ext ∧ ext.length ≤ todo := by
  intro todo
  induction todo with
  | zero =>
    intro s reply files
    exact ⟨[], by simp [ReadDirectory.loop, stateAfter], le_refl _⟩
  | succ t ih =>
    intro s reply files
    have hsent := SendCommand_sent dev s ReadNext reply (by decide)
    rw [ReadDirectory.loop]
    cases hres : SendCommand dev s ReadNext reply with
    | error f =>
      rw [hres] at hsent
      exact ⟨[ReadNext], hsent, by simp⟩
    | ok v =>
      obtain ⟨ok, s1, reply1⟩ := v
      rw [hres] at hsent
      simp only [stateAfter] at hsent
      dsimp only
      split
      · exact ⟨[ReadNext], hsent, by simp⟩
      · split
        · exact ⟨[ReadNext], hsent, by simp⟩
        · obtain ⟨ext, he, hl⟩ := ih s1 reply1 (files ++ [decodeEntry reply1])
          refine ⟨ReadNext :: ext, ?_, by simp; omega⟩
          rw [he, hsent]
          simp

theorem ReadDirectory_bound (dev : Device) (s : Watch) (files : List TomTomFile) :
    (sentCommands (stateAfter (ReadDirectory dev s files)).log).length ≤
      (sentCommands s.log).length + 1001 := by
  have hsent := SendCommand_sent dev s ReadFirst [] (by decide)
  rw [ReadDirectory]
  cases hres : SendCommand dev s ReadFirst [] with
  | error f =>
    rw [hres] at hsent
    simp only [stateAfter] at hsent ⊢
    rw [hsent]
    simp
  | ok v =>
    obtain ⟨ok, s1, reply1⟩ := v
    rw [hres] at hsent
    simp only [stateAfter] at hsent
    dsimp only
    split
    · simp only [stateAfter]
      rw [hsent]
      simp
    · obtain ⟨ext, he, hl⟩ := ReadDirectory_loop_bound dev 1000 s1 reply1 []
      rw [he, hsent]
      simp
      omega

theorem ReadFile_loop_prefix (dev : Device) (file : TomTomFile)
    (hL : file.length < 4294967296) :
    ∀ (m fuel : Nat) (s : Watch) (reply cmd data : List Nat) (pos : Nat) (r : Nat → List Nat),
      m ≤ fuel → pos + 50 * m ≤ file.length → cmd.length = 10 →
      (∀ j, j < m →
        Accepted (dev (s.xfers + j)) (cmd.set 7 (min 50 (file.length - (pos + 50 * j))))
          ((s.counter + j + 1) % 256) (r j) ∧
        9 ≤ (r j).length ∧ (r j).getD 8 0 = min 50 (file.length - (pos + 50 * j))) →
      ∃ sm replym cmdm, ReadFile.loop dev file fuel s reply cmd data pos =
          ReadFile.loop dev file (fuel - m) sm replym cmdm
            (data ++ ((List.range m).map (fun j => (r j).drop 9)).flatten) (pos + 50 * m) ∧
        cmdm.length = 10 ∧ (∀ x, cmdm.set 7 x = cmd.set 7 x) ∧
        sm.xfers = s.xfers + m ∧ sm.counter % 256 = (s.counter + m) % 256 ∧
        sentCommands sm.log = sentCommands s.log ++
          (List.range m).map (fun j => cmd.set 7 (min 50 (file.length - (pos + 50 * j)))) := by
  intro m
  induction m with
  | zero =>
    intro fuel s reply cmd data pos r _ _ hcmd _
    exact ⟨s, reply, cmd, by simp, hcmd, fun _ => rfl, rfl, rfl, by simp⟩
  | succ m ih =>
    intro fuel s reply cmd data pos r hfuel hle hcmd hacc
    obtain ⟨f, rfl⟩ : ∃ f, fuel = f + 1 := ⟨fuel - 1, by omega⟩
    have hp : pos < file.length := by omega
    have hl : min kMaxReadSize ((file.length - pos) % 4294967296) = min 50 (file.length - pos) := by
      rw [Nat.mod_eq_of_lt (by omega)]; rfl
    have hland : min 50 (file.length - pos) &&& 0xFF = min 50 (file.length - pos) :=
      land_255_of_le _ (Nat.min_le_left _ _)
    obtain ⟨ha, h9, h8⟩ := hacc 0 (Nat.succ_pos _)
    simp only [Nat.mul_zero, Nat.add_zero] at ha h9 h8
    have hsend := SendCommand_accepted dev s (cmd.set 7 (min 50 (file.length - pos))) reply (r 0)
      (by rw [List.length_set]; omega) ha
    have hpos : (pos + kMaxReadSize) % 4294967296 = pos + 50 := by
      rw [Nat.mod_eq_of_lt (by unfold kMaxReadSize; omega)]; rfl
    have hacc1 : ∀ j, j < m →
        Accepted (dev ((s.exchanged (cmd.set 7 (min 50 (file.length - pos)))).xfers + j))
          ((cmd.set 7 (min 50 (file.length - pos))).set 7
            (min 50 (file.length - (pos + 50 + 50 * j))))
          (((s.exchanged (cmd.set 7 (min 50 (file.length - pos)))).counter + j + 1) % 256)
          (r (j + 1)) ∧
        9 ≤ (r (j + 1)).length ∧
        (r (j + 1)).getD 8 0 = min 50 (file.length - (pos + 50 + 50 * j)) := by
      intro j hj
      obtain ⟨hb, hc, hd⟩ := hacc (j + 1) (by omega)
      have e1 : (s.exchanged (cmd.set 7 (min 50 (file.length - pos)))).xfers + j
          = s.xfers + (j + 1) := by
        simp only [Watch.exchanged]; omega
      have e2 : ((s.exchanged (cmd.set 7 (min 50 (file.length - pos)))).counter + j + 1) % 256
          = (s.counter + (j + 1) + 1) % 256 := by
        simp only [Watch.exchanged]; omega
      have e3 : pos + 50 + 50 * j = pos + 50 * (j + 1) := by omega
      rw [e1, e2, e3, List.set_set]
      exact ⟨hb, hc, hd⟩
    obtain ⟨sm, replym, cmdm, hrun, hcm, hset, hx, hctr, hsent⟩ :=
      ih f (s.exchanged (cmd.set 7 (min 50 (file.length - pos))))
        (r 0) (cmd.set 7 (min 50 (file.length - pos))) (data ++ (r 0).drop 9) (pos + 50)
        (fun j => r (j + 1)) (by omega) (by omega) (by rw [List.length_set]; exact hcmd) hacc1
    refine ⟨sm, replym, cmdm, ?_, hcm, ?_, ?_, ?_, ?_⟩
    · rw [ReadFile.loop]
      simp only [hp, if_true, hl, hland, hsend, Bool.true_eq_false, if_false, hpos]
      rw [if_neg (by rw [h8]; omega), hrun, List.range_succ_eq_map, Nat.add_sub_add_right]
      simp only [List.map_cons, List.map_map, List.flatten_cons, List.append_assoc]
      have e3 : pos + 50 + 50 * m = pos + 50 * (m + 1) := by omega
      rw [e3]
      rfl
    · intro x
      rw [hset, List.set_set]
    · rw [hx]; simp only [Watch.exchanged]; omega
    · rw [hctr]; simp only [Watch.exchanged]; omega
    · rw [hsent, sentCommands_exchanged, List.range_succ_eq_map]
      simp only [List.map_cons, List.map_map, List.append_assoc, List.singleton_append,
        Nat.mul_zero, Nat.add_zero, List.set_set]
      congr 2
      apply List.map_congr_left
      intro j _
      simp only [Function.comp, Nat.succ_eq_add_one]
      congr 3
      omega

theorem ReadFile_loop_sent (dev : Device) (file : TomTomFile) :
    ∀ (fuel : Nat) (s : Watch) (reply cmd data : List Nat) (pos : Nat),
      cmd.length ≤ 60 →
      ∃ ext, sentCommands (stateAfter (ReadFile.loop dev file fuel s reply cmd data pos)).log =
        sentCommands s.log ++ ext := by
  intro fuel
  induction fuel with
  | zero =>
    intro s reply cmd data pos _
    rw [ReadFile.loop]
    split <;> exact ⟨[], by simp [stateAfter, Fault.state]⟩
  | succ f ih =>
    intro s reply cmd data pos hcmd
    rw [ReadFile.loop]
    split
    · dsimp only
      have hlen : (cmd.set 7 (min kMaxReadSize ((file.length - pos) % 4294967296) &&& 0xFF)).length
          ≤ 60 := by rw [List.length_set]; exact hcmd
      have hsent := SendCommand_sent dev s _ reply hlen
      cases hres : SendCommand dev s
          (cmd.set 7 (min kMaxReadSize ((file.length - pos) % 4294967296) &&& 0xFF)) reply with
      | error e =>
        rw [hres] at hsent
        exact ⟨_, hsent⟩
      | ok v =>
        obtain ⟨ok, s1, reply1⟩ := v
        rw [hres] at hsent
        simp only [stateAfter] at hsent
        dsimp only
        split
        · exact ⟨_, hsent⟩
        · split
          · exact ⟨_, hsent⟩
          · obtain ⟨ext, he⟩ := ih s1 reply1 _ (data ++ reply1.drop 9)
              ((pos + kMaxReadSize) % 4294967296) hlen
            rw [he, hsent, List.append_assoc]
            exact ⟨_, rfl⟩
    · exact ⟨[], by simp [stateAfter]⟩

theorem open_file1_length (id : Nat) : (open_file1 id).length = 6 := by
  simp [open_file1, setId]

theorem open_file2_length (id : Nat) : (open_file2 id).length = 6 := by
  simp [open_file2, setId]

theorem close_file_length (id : Nat) : (close_file id).length = 6 := by
  simp [close_file, setId]

theorem read_command_length (id : Nat) : (read_command id).length = 10 := by
  simp [read_command, setId]

theorem ReadFile_sent (fuel : Nat) (dev : Device) (s : Watch) (file : TomTomFile)
    (data : List Nat) :
    ∃ rest, sentCommands (stateAfter (ReadFile fuel dev s file data)).log =
        sentCommands s.log ++ open_file1 file.id :: rest ∧
      (∀ s1 r1, SendCommand dev s (open_file1 file.id) [] = .ok (true, s1, r1) →
        ∃ rest2, rest = open_file2 file.id :: rest2) := by
  have hsent1 := SendCommand_sent dev s (open_file1 file.id) []
    (by rw [open_file1_length]; omega)
  rw [ReadFile]
  cases hres1 : SendCommand dev s (open_file1 file.id) [] with
  | error e =>
    rw [hres1] at hsent1
    exact ⟨[], hsent1, fun _ _ h => by simp at h⟩
  | ok v =>
    obtain ⟨ok1, s1, reply1⟩ := v
    rw [hres1] at hsent1
    simp only [stateAfter] at hsent1
    dsimp only
    split
    · rename_i hok1
      refine ⟨[], by simp only [stateAfter]; exact hsent1, fun _ _ h => ?_⟩
      simp only [Except.ok.injEq, Prod.mk.injEq] at h
      rw [hok1] at h
      simp at h
    · have hsent2 := SendCommand_sent dev s1 (open_file2 file.id) reply1
        (by rw [open_file2_length]; omega)
      cases hres2 : SendCommand dev s1 (open_file2 file.id) reply1 with
      | error e =>
        rw [hres2] at hsent2
        refine ⟨[open_file2 file.id], ?_, fun _ _ _ => ⟨[], rfl⟩⟩
        rw [hsent2, hsent1]
        simp
      | ok w =>
        obtain ⟨ok2, s2, reply2⟩ := w
        rw [hres2] at hsent2
        simp only [stateAfter] at hsent2
        dsimp only
        split
        · refine ⟨[open_file2 file.id], ?_, fun _ _ _ => ⟨[], rfl⟩⟩
          simp only [stateAfter]
          rw [hsent2, hsent1]
          simp
        · obtain ⟨ext, he⟩ := ReadFile_loop_sent dev file fuel s2 reply2 (read_command file.id)
            data 0 (by rw [read_command_length]; omega)
          refine ⟨open_file2 file.id :: ext, ?_, fun _ _ _ => ⟨ext, rfl⟩⟩
          rw [he, hsent2, hsent1]
          simp

theorem CloseFile_sent (dev : Device) (s : Watch) (id : Nat) :
    sentCommands (stateAfter (CloseFile dev s id)).log = sentCommands s.log ++ [close_file id] := by
  have hsent := SendCommand_sent dev s (close_file id) [] (by rw [close_file_length]; omega)
  rw [CloseFile]
  cases hres : SendCommand dev s (close_file id) [] with
  | error e =>
    rw [hres] at hsent
    exact hsent
  | ok v =>
    obtain ⟨ok, s1, reply1⟩ := v
    rw [hres] at hsent
    simp only [stateAfter] at hsent
    dsimp only
    split <;> exact hsent

theorem setId_eq (a b c d e f : Nat) (id : Nat) (h : id < 4294967296) :
    setId [a, b, c, d, e, f] id =
      [a, b, id >>> 24, (id >>> 16) &&& 0xFF, (id >>> 8) &&& 0xFF, id &&& 0xFF] := by
  have h24 : (id >>> 24) % 256 = id >>> 24 := by
    rw [Nat.shiftRight_eq_div_pow]
    exact Nat.mod_eq_of_lt (by omega)
  simp [setId, h24]

theorem ReadFiles_loop_sent (fuel : Nat) (dev : Device) (disk : TomTomFile → List Nat → Bool)
    (extract_all : Bool) :
    ∀ (files : List TomTomFile) (s : Watch) (written : List (TomTomFile × List Nat)),
      ∃ ext, sentCommands (stateAfter (ReadFiles.loop fuel dev disk extract_all files s
        written)).log = sentCommands s.log ++ ext := by
  intro files
  induction files with
  | nil =>
    intro s written
    exact ⟨[], by simp [ReadFiles.loop, stateAfter]⟩
  | cons file rest ih =>
    intro s written
    rw [ReadFiles.loop]
    split
    · exact ih s written
    · obtain ⟨r1, hread, _⟩ := ReadFile_sent fuel dev s file []
      cases hres : ReadFile fuel dev s file [] with
      | error e =>
        rw [hres] at hread
        exact ⟨_, hread⟩
      | ok v =>
        obtain ⟨ok, s1, data⟩ := v
        rw [hres] at hread
        simp only [stateAfter] at hread
        dsimp only
        split
        · exact ⟨_, hread⟩
        · have hclose := CloseFile_sent dev s1 file.id
          cases hcl : CloseFile dev s1 file.id with
          | error e =>
            rw [hcl] at hclose
            simp only [stateAfter] at hclose ⊢
            rw [hclose, hread, List.append_assoc]
            exact ⟨_, rfl⟩
          | ok w =>
            obtain ⟨okc, s2, u⟩ := w
            rw [hcl] at hclose
            simp only [stateAfter] at hclose
            dsimp only
            split
            · simp only [stateAfter]
              rw [hclose, hread, List.append_assoc]
              exact ⟨_, rfl⟩
            · obtain ⟨ext, he⟩ := ih s2 (written ++ [(file, data)])
              rw [he, hclose, hread, List.append_assoc, List.append_assoc]
              exact ⟨_, rfl⟩

theorem ReadFile_loop_done (dev : Device) (file : TomTomFile) (fuel : Nat) (s : Watch)
    (reply cmd data : List Nat) (pos : Nat) (h : ¬ pos < file.length) :
    ReadFile.loop dev file fuel s reply cmd data pos = .ok (true, s, data) := by
  cases fuel <;> simp [ReadFile.loop, h]

theorem wrapDevice_accepts (j : Nat) (s : Watch) (cmd : List Nat) (hx : s.xfers = 2 + j)
    (hc : s.counter % 256 = (2 + j) % 256) (hcmd : cmd.length = 10) :
    Accepted (wrapDevice s.xfers) cmd ((s.counter + 1) % 256) (chunkReply (wrapChunk j)) := by
  have h2 : ¬ (2 + j < 2) := by omega
  have hj : 2 + j - 2 = j := by omega
  have hctr : (2 + j + 1) % 256 = (s.counter + 1) % 256 := by omega
  have hw : wrapChunk j ≤ 50 := Nat.min_le_left _ _
  apply Accepted_of_frame
  · omega
  · rw [(chunkReply_shape _).1]; omega
  · rw [hx]; simp [wrapDevice, h2]
  · rw [hx, hcmd]; simp [wrapDevice, h2]
  · rw [hx]; simp [wrapDevice, h2]
  · rw [hx]
    simp only [wrapDevice, h2, if_false, hj, hctr]

theorem wrap_loop_diverges : ∀ (fuel j : Nat) (s : Watch) (reply cmd data : List Nat),
    s.xfers = 2 + j → s.counter % 256 = (2 + j) % 256 → cmd.length = 10 →
    ∃ s1, ReadFile.loop wrapDevice ⟨0x91000001, 4294967295⟩ fuel s reply cmd data
      ((50 * j) % 4294967296) = .error (Fault.fuel s1) := by
  intro fuel
  induction fuel with
  | zero =>
    intro j s reply cmd data _ _ _
    have hp : (50 * j) % 4294967296 < 4294967295 := by omega
    exact ⟨s, by simp [ReadFile.loop, hp]⟩
  | succ f ih =>
    intro j s reply cmd data hx hc hcmd
    have hp : (50 * j) % 4294967296 < 4294967295 := by omega
    have hl : min kMaxReadSize ((4294967295 - (50 * j) % 4294967296) % 4294967296)
        = wrapChunk j := by
      rw [Nat.mod_eq_of_lt (by omega)]; rfl
    have hw : wrapChunk j ≤ 50 := Nat.min_le_left _ _
    have hland : wrapChunk j &&& 0xFF = wrapChunk j := land_255_of_le _ hw
    have hacc := wrapDevice_accepts j s (cmd.set 7 (wrapChunk j)) hx hc
      (by rw [List.length_set]; exact hcmd)
    have hsend := SendCommand_accepted wrapDevice s (cmd.set 7 (wrapChunk j)) reply _
      (by rw [List.length_set]; omega) hacc
    have hpos : ((50 * j) % 4294967296 + kMaxReadSize) % 4294967296
        = (50 * (j + 1)) % 4294967296 := by
      unfold kMaxReadSize; omega
    obtain ⟨s1, hrun⟩ := ih (j + 1) (s.exchanged (cmd.set 7 (wrapChunk j)))
      (chunkReply (wrapChunk j)) (cmd.set 7 (wrapChunk j))
      (data ++ (chunkReply (wrapChunk j)).drop 9)
      (by simp only [Watch.exchanged]; omega) (by simp only [Watch.exchanged]; omega)
      (by rw [List.length_set]; exact hcmd)
    refine ⟨s1, ?_⟩
    rw [ReadFile.loop]
    simp only [hp, if_true, hl, hland, hsend, Bool.true_eq_false, if_false, hpos]
    rw [if_neg (by rw [(chunkReply_shape _).1, (chunkReply_shape _).2]; omega)]
    exact hrun

/-! The claims of the specification, in order. -/

/-- C1: for every command of at most 60 bytes and every counter value, the first transfer
`SendCommand` performs is an OUT transfer of `3 + n` bytes from a 64-byte buffer whose
byte 0 is 9, byte 1 is `n`, byte 2 is the incremented counter, bytes `3 .. 3+n-1` are
the command and all bytes from `3+n` to 63 are 0. -/
theorem C1_outgoing_frame (dev : Device) (s : Watch) (command reply : List Nat)
    (h : command.length ≤ 60) :
    ∃ data rest,
      (stateAfter (SendCommand dev s command reply)).log =
        s.log ++ UsbEvent.out data (3 + command.length) :: rest ∧
      data.length = 64 ∧ data[0]? = some 9 ∧ data[1]? = some command.length ∧
      data[2]? = some ((s.counter + 1) % 256) ∧
      (∀ i, i < command.length → data[3 + i]? = command[i]?) ∧
      (∀ j, 3 + command.length ≤ j → j < 64 → data[j]? = some 0) := by
  obtain ⟨_, _, rest, hlog, _⟩ := SendCommand_state dev s command reply h
  refine ⟨outFrame command ((s.counter + 1) % 256), rest, hlog, outFrame_length _ _ h, ?_⟩
  rw [outFrame_eq]
  have hm : command.length % 256 = command.length := Nat.mod_eq_of_lt (by omega)
  refine ⟨by simp, by simp [hm], by simp, ?_, ?_⟩
  · intro i hi
    have e : ([9, command.length % 256, (s.counter + 1) % 256] ++ command ++
        List.replicate (61 - command.length) 0)
        = [9, command.length % 256, (s.counter + 1) % 256] ++ (command ++
        List.replicate (61 - command.length) 0) := by simp
    rw [e, List.getElem?_append_right (by simp)]
    simp only [List.length_cons, List.length_nil, Nat.add_sub_cancel_left, zero_add]
    exact List.getElem?_append_left hi
  · intro j hj1 hj2
    rw [List.getElem?_append_right (by simp; omega)]
    rw [List.getElem?_replicate]
    simp
    omega

/-- C1, instance: the next-entry command sent from a fresh object. -/
theorem C1_outgoing_frame_witness :
    ∃ data rest,
      (stateAfter (SendCommand wrongCounterDevice Watch.fresh ReadNext [])).log =
        Watch.fresh.log ++ UsbEvent.out data (3 + ReadNext.length) :: rest ∧
      data.length = 64 ∧ data[0]? = some 9 ∧ data[1]? = some ReadNext.length ∧
      data[2]? = some ((Watch.fresh.counter + 1) % 256) ∧
      (∀ i, i < ReadNext.length → data[3 + i]? = ReadNext[i]?) ∧
      (∀ j, 3 + ReadNext.length ≤ j → j < 64 → data[j]? = some 0) :=
  C1_outgoing_frame wrongCounterDevice Watch.fresh ReadNext [] (by decide)

/-- C2: a `SendCommand` call with a command of at most 60 bytes leaves `counter_` at
`(c + 1) mod 256`, whatever the outcome of the exchange; and in a session that starts
with `counter_ = 0` every such call writes exactly one frame, the frame written by the
call number `k + 1` among them carrying the counter byte `(k + 1) mod 256` (1 for the
first call). -/
theorem C2_counter_increment (dev : Device) (s : Watch) (command reply : List Nat)
    (cmds : List (List Nat)) (h : command.length ≤ 60) :
    (stateAfter (SendCommand dev s command reply)).counter = (s.counter + 1) % 256 ∧
    (sentFrames (sessionState (session dev Watch.fresh cmds)).log).length =
      (sessionState (session dev Watch.fresh cmds)).xfers ∧
    (∀ k, k < (sessionState (session dev Watch.fresh cmds)).xfers →
      (sentFrames (sessionState (session dev Watch.fresh cmds)).log).getD k [] =
        outFrame ((sendable cmds).getD k []) ((k + 1) % 256) ∧
      ((sentFrames (sessionState (session dev Watch.fresh cmds)).log).getD k []).getD 2 0 =
        (k + 1) % 256) ∧
    (∀ u, session dev Watch.fresh cmds = .ok u → u.xfers = (sendable cmds).length) := by
  refine ⟨(SendCommand_state dev s command reply h).1, ?_⟩
  obtain ⟨m, hm1, hm2, hm3, hm4⟩ := session_frames dev cmds Watch.fresh
  have hx : (sessionState (session dev Watch.fresh cmds)).xfers = m := by
    rw [hm2]; simp [Watch.fresh]
  rw [hx, hm3]
  refine ⟨by simp [sentFrames, Watch.fresh], ?_, ?_⟩
  · intro k hk
    simp only [sentFrames, Watch.fresh, List.filterMap_nil, List.nil_append]
    simp only [List.getD_eq_getElem?_getD, List.getElem?_map, List.getElem?_range hk,
      Option.map_some', Option.getD_some, outFrame_eq]
    simp
  · intro u hu
    have := hm4 u hu
    rw [hu] at hx
    simp only [sessionState] at hx
    omega

/-- C2, instance: four commands, one of them too long, sent to a device that rejects
every reply. -/
theorem C2_counter_increment_witness :
    (stateAfter (SendCommand wrongCounterDevice Watch.fresh ReadNext [])).counter = (0 + 1) % 256 ∧
    (sentFrames (sessionState (session wrongCounterDevice Watch.fresh
        [ReadFirst, List.replicate 61 0, ReadNext, ReadNext])).log).length =
      (sessionState (session wrongCounterDevice Watch.fresh
        [ReadFirst, List.replicate 61 0, ReadNext, ReadNext])).xfers ∧
    (∀ k, k < (sessionState (session wrongCounterDevice Watch.fresh
        [ReadFirst, List.replicate 61 0, ReadNext, ReadNext])).xfers →
      (sentFrames (sessionState (session wrongCounterDevice Watch.fresh
        [ReadFirst, List.replicate 61 0, ReadNext, ReadNext])).log).getD k [] =
        outFrame ((sendable [ReadFirst, List.replicate 61 0, ReadNext, ReadNext]).getD k [])
          ((k + 1) % 256) ∧
      ((sentFrames (sessionState (session wrongCounterDevice Watch.fresh
        [ReadFirst, List.replicate 61 0, ReadNext, ReadNext])).log).getD k []).getD 2 0 =
        (k + 1) % 256) ∧
    (∀ u, session wrongCounterDevice Watch.fresh
        [ReadFirst, List.replicate 61 0, ReadNext, ReadNext] = .ok u →
      u.xfers = (sendable [ReadFirst, List.replicate 61 0, ReadNext, ReadNext]).length) :=
  C2_counter_increment wrongCounterDevice Watch.fresh ReadNext []
    [ReadFirst, List.replicate 61 0, ReadNext, ReadNext] (by decide)

/-- C3: when the write succeeds and the device returns at least 3 bytes whose third byte
is not the counter value just sent, `SendCommand` returns `false` and the caller's
reply vector is what it was. -/
theorem C3_counter_mismatch_rejected (dev : Device) (s : Watch) (command reply : List Nat)
    (h : command.length ≤ 60) (hw : (dev s.xfers).wstatus = 0)
    (hwt : (dev s.xfers).wtransferred = 3 + (command.length : Int))
    (hlen : 3 ≤ (dev s.xfers).rx.length)
    (hne : (dev s.xfers).rx.getD 2 0 ≠ (s.counter + 1) % 256) :
    ∃ s1, SendCommand dev s command reply = .ok (false, s1, reply) := by
  have hn : ¬ (command.length > 60) := by omega
  have hm : command.length % 256 = command.length := Nat.mod_eq_of_lt (by omega)
  have h1 : (outFrame command ((s.counter + 1) % 256)).getD 1 0 = command.length := by
    rw [outFrame_eq]; simp [hm]
  have h2 : (interruptIn (outFrame command ((s.counter + 1) % 256)) (dev s.xfers).rx).1.getD 2 0
      = (dev s.xfers).rx.getD 2 0 := by
    obtain ⟨a, b, c, t, e⟩ : ∃ a b c t, (dev s.xfers).rx = a :: b :: c :: t := by
      match hrx : (dev s.xfers).rx, hlen with
      | a :: b :: c :: t, _ => exact ⟨a, b, c, t, rfl⟩
    rw [e]
    simp [interruptIn, memcpy]
  unfold SendCommand
  simp only [hn, if_false, h1, hw, hwt, ne_eq, not_true_eq_false, or_self]
  by_cases hr : (dev s.xfers).rstatus = 0
  · simp only [hr, not_true_eq_false, if_false]
    rw [if_pos (Or.inr (Or.inr (Or.inr (by rw [h2]; exact hne))))]
    exact ⟨_, rfl⟩
  · simp only [hr, not_false_eq_true, if_true]
    exact ⟨_, rfl⟩

/-- C3, instance: the counter sent is 1, the device answers with counter byte 9. -/
theorem C3_counter_mismatch_rejected_witness :
    ∃ s1, SendCommand wrongCounterDevice Watch.fresh ReadNext [4, 2] = .ok (false, s1, [4, 2]) :=
  C3_counter_mismatch_rejected wrongCounterDevice Watch.fresh ReadNext [4, 2]
    (by decide) (by decide) (by decide) (by decide) (by decide)

/-- C4: the device sends the 4-byte frame `01 04 01 07`, whose declared reply length 4
exceeds `transferred - 3 = 1`; `SendCommand` does not fail: it returns `true` and hands
back 4 bytes, the last three being bytes of the command it sent itself. -/
theorem C4_declared_length_not_enforced :
    (staleDevice 0).rx = [1, 4, 1, 7] ∧
    ((staleDevice 0).rx.getD 1 0 : Int) > ((staleDevice 0).rx.length : Int) - 3 ∧
    SendCommand staleDevice Watch.fresh [0xAA, 0xBB, 0xCC, 0xDD] [] =
      .ok (true, Watch.fresh.exchanged [0xAA, 0xBB, 0xCC, 0xDD], [7, 0xBB, 0xCC, 0xDD]) := by
  decide

/-- C5: a command of more than 60 bytes makes `SendCommand` return `false` with the object
state (counter and transfer log) and the caller's reply vector unchanged: no transfer
is performed. -/
theorem C5_long_command_rejected (dev : Device) (s : Watch) (command reply : List Nat)
    (h : 60 < command.length) :
    SendCommand dev s command reply = .ok (false, s, reply) ∧
    (stateAfter (SendCommand dev s command reply)).log = s.log ∧
    (stateAfter (SendCommand dev s command reply)).counter = s.counter := by
  rw [SendCommand_long dev s command reply h]
  exact ⟨rfl, rfl, rfl⟩

/-- C5, instance: a command of 61 bytes. -/
theorem C5_long_command_rejected_witness :
    SendCommand wrongCounterDevice Watch.fresh (List.replicate 61 0) [4, 2] =
        .ok (false, Watch.fresh, [4, 2]) ∧
    (stateAfter (SendCommand wrongCounterDevice Watch.fresh (List.replicate 61 0) [4, 2])).log =
        Watch.fresh.log ∧
    (stateAfter (SendCommand wrongCounterDevice Watch.fresh (List.replicate 61 0) [4, 2])).counter =
        Watch.fresh.counter :=
  C5_long_command_rejected wrongCounterDevice Watch.fresh (List.replicate 61 0) [4, 2] (by decide)

/-- C6: the device sends the 3-byte frame `01 02 01`, which has no byte 3 or 4;
`SendCommand` returns `true` and hands back two bytes that were never received: the
first two bytes of the command it sent itself. -/
theorem C6_reply_holds_bytes_not_received :
    (shortDevice 0).rx = [1, 2, 1] ∧ (shortDevice 0).rx[3]? = none ∧
    SendCommand shortDevice Watch.fresh [0xAA, 0xBB, 0xCC, 0xDD] [] =
      .ok (true, Watch.fresh.exchanged [0xAA, 0xBB, 0xCC, 0xDD], [0xAA, 0xBB]) := by
  decide

/-- C7: when the begin-enumeration exchange is accepted and the next-entry exchanges
deliver 22-byte replies `r 0, r 1, ...` of which `r k` (`k < 1000`) is the first with
byte 20 equal to 1, `ReadDirectory` returns `true` with exactly the `k` records decoded
from `r 0 .. r (k-1)`, in that order, and it has sent the begin command and `k + 1`
next-entry commands, none after the terminating reply. -/
theorem C7_directory_stops_at_sentinel (dev : Device) (s : Watch) (files : List TomTomFile)
    (r0 : List Nat) (r : Nat → List Nat) (k : Nat) (hk : k < 1000)
    (hfirst : Accepted (dev s.xfers) ReadFirst ((s.counter + 1) % 256) r0)
    (hacc : ∀ j, j ≤ k →
      Accepted (dev (s.xfers + 1 + j)) ReadNext ((s.counter + 1 + j + 1) % 256) (r j) ∧
      (r j).length = 22)
    (hne : ∀ j, j < k → (r j).getD 20 0 ≠ 1) (hlast : (r k).getD 20 0 = 1) :
    ∃ s1, ReadDirectory dev s files =
        .ok (true, s1, (List.range k).map (fun j => decodeEntry (r j))) ∧
      s1.xfers = s.xfers + (k + 2) ∧
      sentCommands s1.log = sentCommands s.log ++ ReadFirst :: List.replicate (k + 1) ReadNext := by
  have hsend := SendCommand_accepted dev s ReadFirst [] r0 (by decide) hfirst
  have hacc1 : ∀ j, j ≤ k →
      Accepted (dev ((s.exchanged ReadFirst).xfers + j)) ReadNext
        (((s.exchanged ReadFirst).counter + j + 1) % 256) (r j) ∧ (r j).length = 22 := by
    intro j hj
    obtain ⟨hb, hc⟩ := hacc j hj
    have e2 : ((s.exchanged ReadFirst).counter + j + 1) % 256 = (s.counter + 1 + j + 1) % 256 := by
      simp only [Watch.exchanged]; omega
    rw [e2]
    exact ⟨hb, hc⟩
  obtain ⟨s1, hrun, hx, hsent⟩ := ReadDirectory_loop_run dev k 1000 (s.exchanged ReadFirst) r0 []
    r hk hacc1 hne hlast
  refine ⟨s1, ?_, ?_, ?_⟩
  · rw [ReadDirectory, hsend]
    simp only [Bool.true_eq_false, if_false]
    rw [hrun]
    simp
  · rw [hx]; simp only [Watch.exchanged]; omega
  · rw [hsent, sentCommands_exchanged]
    simp

/-- C7, instance: a directory of two files followed by the end marker. -/
theorem C7_directory_stops_at_sentinel_witness :
    ∃ s1, ReadDirectory dirDevice Watch.fresh [] =
        .ok (true, s1, (List.range 2).map (fun j => decodeEntry (dirReply j))) ∧
      s1.xfers = Watch.fresh.xfers + (2 + 2) ∧
      sentCommands s1.log =
        sentCommands Watch.fresh.log ++ ReadFirst :: List.replicate (2 + 1) ReadNext :=
  C7_directory_stops_at_sentinel dirDevice Watch.fresh [] [] dirReply 2 (by decide) (by decide)
    (by decide) (by decide) (by decide)

/-- C8: for every 22-byte reply made of bytes, the decoded record has
`length = r[13]*2^24 + r[14]*2^16 + r[15]*2^8 + r[16]` and
`id = r[6]*2^24 + r[7]*2^16 + r[8]*2^8 + r[9]`, both below `2^32`; this includes the
replies whose byte 13 or byte 6 has its top bit set. -/
theorem C8_big_endian_decode (reply : List Nat) (hb : ∀ b ∈ reply, b < 256)
    (hl : reply.length = 22) :
    (decodeEntry reply).length = reply.getD 13 0 * 2 ^ 24 + reply.getD 14 0 * 2 ^ 16 +
      reply.getD 15 0 * 2 ^ 8 + reply.getD 16 0 ∧
    (decodeEntry reply).id = reply.getD 6 0 * 2 ^ 24 + reply.getD 7 0 * 2 ^ 16 +
      reply.getD 8 0 * 2 ^ 8 + reply.getD 9 0 ∧
    (decodeEntry reply).length < 2 ^ 32 ∧ (decodeEntry reply).id < 2 ^ 32 ∧
    (∀ i, i < 22 → reply[i]? = some (reply.getD i 0)) := by
  have e1 : be32 reply 13 = reply.getD 13 0 * 2 ^ 24 + reply.getD 14 0 * 2 ^ 16 +
      reply.getD 15 0 * 2 ^ 8 + reply.getD 16 0 := be32_eq reply hb 13
  have e2 : be32 reply 6 = reply.getD 6 0 * 2 ^ 24 + reply.getD 7 0 * 2 ^ 16 +
      reply.getD 8 0 * 2 ^ 8 + reply.getD 9 0 := be32_eq reply hb 6
  have b13 := getD_lt_of_bytes reply hb 13
  have b14 := getD_lt_of_bytes reply hb 14
  have b15 := getD_lt_of_bytes reply hb 15
  have b16 := getD_lt_of_bytes reply hb 16
  have b6 := getD_lt_of_bytes reply hb 6
  have b7 := getD_lt_of_bytes reply hb 7
  have b8 := getD_lt_of_bytes reply hb 8
  have b9 := getD_lt_of_bytes reply hb 9
  simp only [decodeEntry]
  refine ⟨e1, e2, ?_, ?_, ?_⟩
  · rw [e1]; omega
  · rw [e2]; omega
  · intro i hi
    rw [List.getD_eq_getElem?_getD, List.getElem?_eq_getElem (by omega)]
    rfl

/-- C8, instance: an entry with id `0x91 00 00 01` and length `0xFF 00 00 0B`. -/
theorem C8_big_endian_decode_witness :
    (decodeEntry (dirEntry 0x91 1 11 0 |>.set 13 0xFF)).length =
      (dirEntry 0x91 1 11 0 |>.set 13 0xFF).getD 13 0 * 2 ^ 24 +
      (dirEntry 0x91 1 11 0 |>.set 13 0xFF).getD 14 0 * 2 ^ 16 +
      (dirEntry 0x91 1 11 0 |>.set 13 0xFF).getD 15 0 * 2 ^ 8 +
      (dirEntry 0x91 1 11 0 |>.set 13 0xFF).getD 16 0 ∧
    (decodeEntry (dirEntry 0x91 1 11 0 |>.set 13 0xFF)).id =
      (dirEntry 0x91 1 11 0 |>.set 13 0xFF).getD 6 0 * 2 ^ 24 +
      (dirEntry 0x91 1 11 0 |>.set 13 0xFF).getD 7 0 * 2 ^ 16 +
      (dirEntry 0x91 1 11 0 |>.set 13 0xFF).getD 8 0 * 2 ^ 8 +
      (dirEntry 0x91 1 11 0 |>.set 13 0xFF).getD 9 0 ∧
    (decodeEntry (dirEntry 0x91 1 11 0 |>.set 13 0xFF)).length < 2 ^ 32 ∧
    (decodeEntry (dirEntry 0x91 1 11 0 |>.set 13 0xFF)).id < 2 ^ 32 ∧
    (∀ i, i < 22 → (dirEntry 0x91 1 11 0 |>.set 13 0xFF)[i]? =
      some ((dirEntry 0x91 1 11 0 |>.set 13 0xFF).getD i 0)) :=
  C8_big_endian_decode (dirEntry 0x91 1 11 0 |>.set 13 0xFF) (by decide) (by decide)

/-- C9: for a record of length `L` with `L + 50 ≤ 2^32`, when both opens and every read
are accepted and each read reply has at least 9 bytes with byte 8 equal to the size
asked for, `ReadFile` (with fuel for `ceil(L/50)` iterations) returns `true` and has
sent, after the two opens, exactly `ceil(L/50)` read commands, the `j`-th one with verb
0x07 and with `min(50, L - 50 j)` in its size byte (byte 7). -/
theorem C9_read_schedule (fuel : Nat) (dev : Device) (s : Watch) (file : TomTomFile)
    (data r1 r2 : List Nat) (r : Nat → List Nat)
    (hL : file.length + 50 ≤ 4294967296) (hfuel : (file.length + 49) / 50 ≤ fuel)
    (h1 : Accepted (dev s.xfers) (open_file1 file.id) ((s.counter + 1) % 256) r1)
    (h2 : Accepted (dev (s.xfers + 1)) (open_file2 file.id) ((s.counter + 2) % 256) r2)
    (hr : ∀ j, j < (file.length + 49) / 50 →
      Accepted (dev (s.xfers + 2 + j))
        ((read_command file.id).set 7 (min 50 (file.length - 50 * j)))
        ((s.counter + 3 + j) % 256) (r j) ∧
      9 ≤ (r j).length ∧ (r j).getD 8 0 = min 50 (file.length - 50 * j)) :
    ∃ s1, ReadFile fuel dev s file data = .ok (true, s1,
        data ++ ((List.range ((file.length + 49) / 50)).map (fun j => (r j).drop 9)).flatten) ∧
      sentCommands s1.log = sentCommands s.log ++
        [open_file1 file.id, open_file2 file.id] ++
        (List.range ((file.length + 49) / 50)).map
          (fun j => (read_command file.id).set 7 (min 50 (file.length - 50 * j))) ∧
      (∀ j, j < (file.length + 49) / 50 →
        ((read_command file.id).set 7 (min 50 (file.length - 50 * j))).getD 0 0 = 0x07 ∧
        ((read_command file.id).set 7 (min 50 (file.length - 50 * j))).getD 7 0 =
          min 50 (file.length - 50 * j)) := by
  have hs1 := SendCommand_accepted dev s (open_file1 file.id) [] r1
    (by simp [open_file1, setId]) h1
  have hs2 := SendCommand_accepted dev (s.exchanged (open_file1 file.id)) (open_file2 file.id)
    r1 r2 (by simp [open_file2, setId])
    (by
      have e : ((s.exchanged (open_file1 file.id)).counter + 1) % 256 = (s.counter + 2) % 256 := by
        simp only [Watch.exchanged]; omega
      rw [e]; exact h2)
  have hacc : ∀ j, j < (file.length + 49) / 50 →
      Accepted (dev (((s.exchanged (open_file1 file.id)).exchanged (open_file2 file.id)).xfers + j))
        ((read_command file.id).set 7 (min 50 (file.length - (0 + 50 * j))))
        ((((s.exchanged (open_file1 file.id)).exchanged (open_file2 file.id)).counter + j + 1) % 256)
        (r j) ∧
      9 ≤ (r j).length ∧ (r j).getD 8 0 = min 50 (file.length - (0 + 50 * j)) := by
    intro j hj
    obtain ⟨ha, hb, hc⟩ := hr j hj
    have e1 : ((s.exchanged (open_file1 file.id)).exchanged (open_file2 file.id)).xfers + j
        = s.xfers + 2 + j := by
      simp only [Watch.exchanged]
    have e2 : ((((s.exchanged (open_file1 file.id)).exchanged (open_file2 file.id)).counter
        + j + 1) % 256) = (s.counter + 3 + j) % 256 := by
      simp only [Watch.exchanged]; omega
    rw [e1, e2, Nat.zero_add]
    exact ⟨ha, hb, hc⟩
  obtain ⟨s1, hrun, _, hsent⟩ := ReadFile_loop_run dev file hL ((file.length + 49) / 50) fuel
    ((s.exchanged (open_file1 file.id)).exchanged (open_file2 file.id)) r2
    (read_command file.id) data 0 r hfuel (by omega) (by omega)
    (by simp [read_command, setId]) hacc
  refine ⟨s1, ?_, ?_, ?_⟩
  · rw [ReadFile, hs1]
    simp only [Bool.true_eq_false, if_false, hs2]
    exact hrun
  · rw [hsent, sentCommands_exchanged, sentCommands_exchanged]
    simp only [List.append_assoc, List.singleton_append, List.cons_append, List.nil_append,
      Nat.zero_add]
  · intro j _
    simp [read_command, setId]

/-- C9, instance: a record of length 130 gives exactly three reads, asking for 50, 50
and 30 bytes in that order. -/
theorem C9_read_schedule_witness :
    ∃ s1, ReadFile 3 chunkDevice Watch.fresh ⟨0x91000001, 130⟩ [] = .ok (true, s1,
        [] ++ ((List.range 3).map
          (fun j => (chunkReply (min 50 (130 - 50 * j))).drop 9)).flatten) ∧
      sentCommands s1.log =
        [[0x06, 0x00, 0x91, 0x00, 0x00, 0x01], [0x05, 0x00, 0x91, 0x00, 0x00, 0x01],
          [0x07, 0x00, 0x91, 0x00, 0x00, 0x01, 0x00, 50, 0x32, 0x00],
          [0x07, 0x00, 0x91, 0x00, 0x00, 0x01, 0x00, 50, 0x32, 0x00],
          [0x07, 0x00, 0x91, 0x00, 0x00, 0x01, 0x00, 30, 0x32, 0x00]] ∧
      (∀ j, j < 3 →
        ((read_command 0x91000001).set 7 (min 50 (130 - 50 * j))).getD 0 0 = 0x07 ∧
        ((read_command 0x91000001).set 7 (min 50 (130 - 50 * j))).getD 7 0 =
          min 50 (130 - 50 * j)) :=
  C9_read_schedule 3 chunkDevice Watch.fresh ⟨0x91000001, 130⟩ [] [] []
    (fun j => chunkReply (min 50 (130 - 50 * j)))
    (by decide) (by decide) (by decide) (by decide) (by decide)

/-- C11: when both opens and the first `m` reads are accepted and in order, and the read
number `m` (with `50 m` below the record length) is answered by an accepted reply that
is shorter than 9 bytes or whose byte 8 is not the size asked for, `ReadFile` returns
`false`; the output vector holds what it held before that chunk was requested (the
initial content and the first `m` chunks), and the offending read is the last command
sent. -/
theorem C11_bad_chunk_aborts (fuel : Nat) (dev : Device) (s : Watch) (file : TomTomFile)
    (data r1 r2 : List Nat) (r : Nat → List Nat) (m : Nat)
    (hL : file.length < 4294967296) (hm : 50 * m < file.length) (hfuel : m < fuel)
    (h1 : Accepted (dev s.xfers) (open_file1 file.id) ((s.counter + 1) % 256) r1)
    (h2 : Accepted (dev (s.xfers + 1)) (open_file2 file.id) ((s.counter + 2) % 256) r2)
    (hr : ∀ j, j < m →
      Accepted (dev (s.xfers + 2 + j))
        ((read_command file.id).set 7 (min 50 (file.length - 50 * j)))
        ((s.counter + 3 + j) % 256) (r j) ∧
      9 ≤ (r j).length ∧ (r j).getD 8 0 = min 50 (file.length - 50 * j))
    (hbad : Accepted (dev (s.xfers + 2 + m))
        ((read_command file.id).set 7 (min 50 (file.length - 50 * m)))
        ((s.counter + 3 + m) % 256) (r m) ∧
      ((r m).length < 9 ∨ (r m).getD 8 0 ≠ min 50 (file.length - 50 * m))) :
    ∃ s1, ReadFile fuel dev s file data = .ok (false, s1,
        data ++ ((List.range m).map (fun j => (r j).drop 9)).flatten) ∧
      s1.xfers = s.xfers + 2 + (m + 1) ∧
      sentCommands s1.log = sentCommands s.log ++
        [open_file1 file.id, open_file2 file.id] ++
        (List.range (m + 1)).map
          (fun j => (read_command file.id).set 7 (min 50 (file.length - 50 * j))) := by
  have hs1 := SendCommand_accepted dev s (open_file1 file.id) [] r1
    (by simp [open_file1, setId]) h1
  have hs2 := SendCommand_accepted dev (s.exchanged (open_file1 file.id)) (open_file2 file.id)
    r1 r2 (by simp [open_file2, setId])
    (by
      have e : ((s.exchanged (open_file1 file.id)).counter + 1) % 256 = (s.counter + 2) % 256 := by
        simp only [Watch.exchanged]; omega
      rw [e]; exact h2)
  have hacc : ∀ j, j < m →
      Accepted (dev (((s.exchanged (open_file1 file.id)).exchanged (open_file2 file.id)).xfers + j))
        ((read_command file.id).set 7 (min 50 (file.length - (0 + 50 * j))))
        ((((s.exchanged (open_file1 file.id)).exchanged (open_file2 file.id)).counter + j + 1) % 256)
        (r j) ∧
      9 ≤ (r j).length ∧ (r j).getD 8 0 = min 50 (file.length - (0 + 50 * j)) := by
    intro j hj
    obtain ⟨ha, hb, hc⟩ := hr j hj
    have e1 : ((s.exchanged (open_file1 file.id)).exchanged (open_file2 file.id)).xfers + j
        = s.xfers + 2 + j := by
      simp only [Watch.exchanged]
    have e2 : ((((s.exchanged (open_file1 file.id)).exchanged (open_file2 file.id)).counter
        + j + 1) % 256) = (s.counter + 3 + j) % 256 := by
      simp only [Watch.exchanged]; omega
    rw [e1, e2, Nat.zero_add]
    exact ⟨ha, hb, hc⟩
  obtain ⟨sm, replym, cmdm, hrun, hcm, hset, hx, hctr, hsent⟩ :=
    ReadFile_loop_prefix dev file hL m fuel
      ((s.exchanged (open_file1 file.id)).exchanged (open_file2 file.id)) r2
      (read_command file.id) data 0 r (by omega) (by omega)
      (by simp [read_command, setId]) hacc
  obtain ⟨f, hf⟩ : ∃ f, fuel - m = f + 1 := ⟨fuel - m - 1, by omega⟩
  have hxm : sm.xfers = s.xfers + 2 + m := by
    rw [hx]; simp only [Watch.exchanged]
  have hcm1 : (sm.counter + 1) % 256 = (s.counter + 3 + m) % 256 := by
    simp only [Watch.exchanged] at hctr; omega
  have hp : 0 + 50 * m < file.length := by omega
  have hl : min kMaxReadSize ((file.length - (0 + 50 * m)) % 4294967296)
      = min 50 (file.length - 50 * m) := by
    rw [Nat.mod_eq_of_lt (by omega), Nat.zero_add]; rfl
  have hland : min 50 (file.length - 50 * m) &&& 0xFF = min 50 (file.length - 50 * m) :=
    land_255_of_le _ (Nat.min_le_left _ _)
  obtain ⟨hbacc, hbchk⟩ := hbad
  rw [← hxm, ← hcm1, ← hset] at hbacc
  have hsend := SendCommand_accepted dev sm _ replym (r m)
    (by rw [List.length_set]; omega) hbacc
  refine ⟨sm.exchanged (cmdm.set 7 (min 50 (file.length - 50 * m))), ?_, ?_, ?_⟩
  · rw [ReadFile, hs1]
    simp only [Bool.true_eq_false, if_false, hs2]
    rw [hrun, hf, ReadFile.loop]
    simp only [hp, if_true, hl, hland, hsend, Bool.true_eq_false, if_false]
    rw [if_pos hbchk]
  · simp only [Watch.exchanged] at hxm ⊢
    omega
  · rw [sentCommands_exchanged, hsent, sentCommands_exchanged, sentCommands_exchanged, hset,
      List.range_succ, List.map_append]
    simp only [List.append_assoc, List.singleton_append, List.cons_append, List.nil_append,
      Nat.zero_add, List.map_cons, List.map_nil]

/-- C11, instance: the second chunk of a 130-byte file comes back labelled 49 instead of
50. -/
theorem C11_bad_chunk_aborts_witness :
    ∃ s1, ReadFile 3 badChunkDevice Watch.fresh ⟨0x91000001, 130⟩ [] = .ok (false, s1,
        [] ++ ((List.range 1).map (fun j => (badChunkReply j).drop 9)).flatten) ∧
      s1.xfers = Watch.fresh.xfers + 2 + (1 + 1) ∧
      sentCommands s1.log = sentCommands Watch.fresh.log ++
        [open_file1 0x91000001, open_file2 0x91000001] ++
        (List.range (1 + 1)).map
          (fun j => (read_command 0x91000001).set 7 (min 50 (130 - 50 * j))) :=
  C11_bad_chunk_aborts 3 badChunkDevice Watch.fresh ⟨0x91000001, 130⟩ [] [] [] badChunkReply 1
    (by decide) (by decide) (by decide) (by decide) (by decide) (by decide) (by decide)

/-- C12: for every 32-bit file id the first command `ReadFile` sends is
`06 00 id>>24 (id>>16)&FF (id>>8)&FF id&FF` and, when that exchange returns `true`, the
second one is the same with verb 0x05; if the first exchange returns `false`,
`ReadFile` returns `false` having sent that one command only, and if the second one
returns `false`, `ReadFile` returns `false` having sent those two commands only, so
that no read command is sent. -/
theorem C12_open_sequence (fuel : Nat) (dev : Device) (s : Watch) (file : TomTomFile)
    (data : List Nat) (hid : file.id < 4294967296) :
    open_file1 file.id = [0x06, 0x00, file.id >>> 24, (file.id >>> 16) &&& 0xFF,
      (file.id >>> 8) &&& 0xFF, file.id &&& 0xFF] ∧
    open_file2 file.id = [0x05, 0x00, file.id >>> 24, (file.id >>> 16) &&& 0xFF,
      (file.id >>> 8) &&& 0xFF, file.id &&& 0xFF] ∧
    (∃ rest, sentCommands (stateAfter (ReadFile fuel dev s file data)).log =
        sentCommands s.log ++ open_file1 file.id :: rest ∧
      (∀ s1 r1, SendCommand dev s (open_file1 file.id) [] = .ok (true, s1, r1) →
        ∃ rest2, rest = open_file2 file.id :: rest2)) ∧
    (∀ s1 r1, SendCommand dev s (open_file1 file.id) [] = .ok (false, s1, r1) →
      ReadFile fuel dev s file data = .ok (false, s1, data) ∧
      sentCommands s1.log = sentCommands s.log ++ [open_file1 file.id]) ∧
    (∀ s1 r1 s2 r2, SendCommand dev s (open_file1 file.id) [] = .ok (true, s1, r1) →
      SendCommand dev s1 (open_file2 file.id) r1 = .ok (false, s2, r2) →
      ReadFile fuel dev s file data = .ok (false, s2, data) ∧
      sentCommands s2.log = sentCommands s.log ++ [open_file1 file.id, open_file2 file.id]) := by
  refine ⟨setId_eq _ _ _ _ _ _ _ hid, setId_eq _ _ _ _ _ _ _ hid,
    ReadFile_sent fuel dev s file data, ?_, ?_⟩
  · intro s1 r1 h1
    have hsent := SendCommand_sent dev s (open_file1 file.id) []
      (by rw [open_file1_length]; omega)
    rw [h1] at hsent
    refine ⟨?_, hsent⟩
    rw [ReadFile, h1]
    simp
  · intro s1 r1 s2 r2 h1 h2
    have hsent1 := SendCommand_sent dev s (open_file1 file.id) []
      (by rw [open_file1_length]; omega)
    have hsent2 := SendCommand_sent dev s1 (open_file2 file.id) r1
      (by rw [open_file2_length]; omega)
    rw [h1] at hsent1
    rw [h2] at hsent2
    simp only [stateAfter] at hsent1 hsent2
    refine ⟨?_, by rw [hsent2, hsent1]; simp⟩
    rw [ReadFile, h1]
    simp only [Bool.true_eq_false, if_false, h2, if_true]

/-- C12, instance: the file `0x91000001` on a device that accepts both opens. -/
theorem C12_open_sequence_witness :
    open_file1 0x91000001 = [0x06, 0x00, 0x91000001 >>> 24, (0x91000001 >>> 16) &&& 0xFF,
      (0x91000001 >>> 8) &&& 0xFF, 0x91000001 &&& 0xFF] ∧
    open_file2 0x91000001 = [0x05, 0x00, 0x91000001 >>> 24, (0x91000001 >>> 16) &&& 0xFF,
      (0x91000001 >>> 8) &&& 0xFF, 0x91000001 &&& 0xFF] ∧
    (∃ rest, sentCommands (stateAfter (ReadFile 3 chunkDevice Watch.fresh
          ⟨0x91000001, 130⟩ [])).log =
        sentCommands Watch.fresh.log ++ open_file1 0x91000001 :: rest ∧
      (∀ s1 r1, SendCommand chunkDevice Watch.fresh (open_file1 0x91000001) [] =
          .ok (true, s1, r1) →
        ∃ rest2, rest = open_file2 0x91000001 :: rest2)) ∧
    (∀ s1 r1, SendCommand chunkDevice Watch.fresh (open_file1 0x91000001) [] =
        .ok (false, s1, r1) →
      ReadFile 3 chunkDevice Watch.fresh ⟨0x91000001, 130⟩ [] = .ok (false, s1, []) ∧
      sentCommands s1.log = sentCommands Watch.fresh.log ++ [open_file1 0x91000001]) ∧
    (∀ s1 r1 s2 r2, SendCommand chunkDevice Watch.fresh (open_file1 0x91000001) [] =
        .ok (true, s1, r1) →
      SendCommand chunkDevice s1 (open_file2 0x91000001) r1 = .ok (false, s2, r2) →
      ReadFile 3 chunkDevice Watch.fresh ⟨0x91000001, 130⟩ [] = .ok (false, s2, []) ∧
      sentCommands s2.log =
        sentCommands Watch.fresh.log ++ [open_file1 0x91000001, open_file2 0x91000001]) :=
  C12_open_sequence 3 chunkDevice Watch.fresh ⟨0x91000001, 130⟩ [] (by decide)

/-- C13: the directory holds the file `0x91000001` of 130 bytes. When the first open of
`ReadFile` is turned down, `ReadFiles` returns `false` and the open is the last command
sent; when the second chunk read fails, `ReadFiles` returns `false` and that read is the
last command sent: in both runs `ReadFile` was invoked and no close command follows.
On the path where `ReadFile` succeeds (the zero-length file of `emptyFileDevice`) the
close command is sent right after it. -/
theorem C13_no_close_after_failed_read :
    (ReadFiles true 3 failOpenDevice goodDisk false =
      .ok (false, (((Watch.fresh.exchanged ReadFirst).exchanged ReadNext).exchanged
        ReadNext).exchanged (open_file1 0x91000001), []) ∧
     sentCommands ((((Watch.fresh.exchanged ReadFirst).exchanged ReadNext).exchanged
        ReadNext).exchanged (open_file1 0x91000001)).log =
      [ReadFirst, ReadNext, ReadNext, open_file1 0x91000001] ∧
     close_file 0x91000001 ∉ sentCommands ((((Watch.fresh.exchanged ReadFirst).exchanged
        ReadNext).exchanged ReadNext).exchanged (open_file1 0x91000001)).log) ∧
    (ReadFiles true 3 failChunkDevice goodDisk false =
      .ok (false, ((((((Watch.fresh.exchanged ReadFirst).exchanged ReadNext).exchanged
        ReadNext).exchanged (open_file1 0x91000001)).exchanged
        (open_file2 0x91000001)).exchanged ((read_command 0x91000001).set 7 50)).exchanged
        ((read_command 0x91000001).set 7 50), []) ∧
     sentCommands (((((((Watch.fresh.exchanged ReadFirst).exchanged ReadNext).exchanged
        ReadNext).exchanged (open_file1 0x91000001)).exchanged
        (open_file2 0x91000001)).exchanged ((read_command 0x91000001).set 7 50)).exchanged
        ((read_command 0x91000001).set 7 50)).log =
      [ReadFirst, ReadNext, ReadNext, open_file1 0x91000001, open_file2 0x91000001,
        (read_command 0x91000001).set 7 50, (read_command 0x91000001).set 7 50] ∧
     close_file 0x91000001 ∉ sentCommands (((((((Watch.fresh.exchanged ReadFirst).exchanged
        ReadNext).exchanged ReadNext).exchanged (open_file1 0x91000001)).exchanged
        (open_file2 0x91000001)).exchanged ((read_command 0x91000001).set 7 50)).exchanged
        ((read_command 0x91000001).set 7 50)).log) ∧
    (∃ s2, ReadFiles true 3 emptyFileDevice goodDisk false =
        .ok (true, s2, [(⟨0x91000001, 0⟩, [])]) ∧
      sentCommands s2.log = [ReadFirst, ReadNext, ReadNext, open_file1 0x91000001,
        open_file2 0x91000001, close_file 0x91000001]) := by
  refine ⟨⟨by decide, by decide, by decide⟩, ⟨by decide, by decide, by decide⟩, ?_⟩
  exact ⟨(((((Watch.fresh.exchanged ReadFirst).exchanged ReadNext).exchanged
    ReadNext).exchanged (open_file1 0x91000001)).exchanged
    (open_file2 0x91000001)).exchanged (close_file 0x91000001), by decide, by decide⟩

/-- C14: when the begin-enumeration exchange is accepted and the first `k` next-entry
exchanges (`k < 1000`) deliver 22-byte entries, a next-entry exchange number `k` that
fails, or that delivers a reply whose length is not 22, makes `ReadDirectory` return
`false` with the `k` records decoded before and nothing from that reply; the begin
command and `k + 1` next-entry commands have been sent, none after the offending
exchange. -/
theorem C14_bad_entry_reply_aborts (dev : Device) (s : Watch) (files : List TomTomFile)
    (r0 : List Nat) (r : Nat → List Nat) (k : Nat) (hk : k < 1000)
    (hfirst : Accepted (dev s.xfers) ReadFirst ((s.counter + 1) % 256) r0)
    (hacc : ∀ j, j < k →
      Accepted (dev (s.xfers + 1 + j)) ReadNext ((s.counter + 1 + j + 1) % 256) (r j) ∧
      (r j).length = 22 ∧ (r j).getD 20 0 ≠ 1)
    (hbad : Rejected (dev (s.xfers + 1 + k)) ReadNext ((s.counter + 1 + k + 1) % 256) ∨
      (Accepted (dev (s.xfers + 1 + k)) ReadNext ((s.counter + 1 + k + 1) % 256) (r k) ∧
        (r k).length ≠ 22)) :
    ∃ s1, ReadDirectory dev s files =
        .ok (false, s1, (List.range k).map (fun j => decodeEntry (r j))) ∧
      s1.xfers = s.xfers + (k + 2) ∧
      sentCommands s1.log = sentCommands s.log ++ ReadFirst :: List.replicate (k + 1) ReadNext := by
  have hsend := SendCommand_accepted dev s ReadFirst [] r0 (by decide) hfirst
  have hacc1 : ∀ j, j < k →
      Accepted (dev ((s.exchanged ReadFirst).xfers + j)) ReadNext
        (((s.exchanged ReadFirst).counter + j + 1) % 256) (r j) ∧ (r j).length = 22 ∧
        (r j).getD 20 0 ≠ 1 := by
    intro j hj
    obtain ⟨hb, hc, hd⟩ := hacc j hj
    have e2 : ((s.exchanged ReadFirst).counter + j + 1) % 256 = (s.counter + 1 + j + 1) % 256 := by
      simp only [Watch.exchanged]; omega
    rw [e2]
    exact ⟨hb, hc, hd⟩
  obtain ⟨sk, replyk, hrun, hx, hctr, hsent⟩ := ReadDirectory_loop_prefix dev k 1000
    (s.exchanged ReadFirst) r0 [] r (by omega) hacc1
  obtain ⟨t, ht⟩ : ∃ t, 1000 - k = t + 1 := ⟨1000 - k - 1, by omega⟩
  have hxk : sk.xfers = s.xfers + 1 + k := by
    rw [hx]; simp only [Watch.exchanged]
  have hck : (sk.counter + 1) % 256 = (s.counter + 1 + k + 1) % 256 := by
    simp only [Watch.exchanged] at hctr; omega
  have hsk : sentCommands sk.log ++ [ReadNext] =
      sentCommands s.log ++ ReadFirst :: List.replicate (k + 1) ReadNext := by
    rw [hsent, sentCommands_exchanged, List.replicate_succ']
    simp
  have hstart : ReadDirectory dev s files = ReadDirectory.loop dev (t + 1) sk replyk
      ((List.range k).map (fun j => decodeEntry (r j))) := by
    rw [ReadDirectory, hsend]
    simp only [Bool.true_eq_false, if_false]
    rw [hrun, ht]
    simp
  rw [hstart, ReadDirectory.loop]
  rcases hbad with hrej | ⟨hgood, hlen⟩
  · rw [← hxk, ← hck] at hrej
    obtain ⟨s1, hs1, hx1, _, hsent1⟩ := SendCommand_rejected dev sk ReadNext replyk (by decide) hrej
    refine ⟨s1, ?_, by rw [hx1, hxk]; omega, by rw [hsent1, hsk]⟩
    rw [hs1]
    simp
  · rw [← hxk, ← hck] at hgood
    have hs1 := SendCommand_accepted dev sk ReadNext replyk (r k) (by decide) hgood
    refine ⟨sk.exchanged ReadNext, ?_, by simp only [Watch.exchanged]; omega,
      by rw [sentCommands_exchanged, hsk]⟩
    rw [hs1]
    simp [hlen]

/-- C14, instance: the second next-entry reply has 21 bytes. -/
theorem C14_bad_entry_reply_aborts_witness :
    ∃ s1, ReadDirectory truncDevice Watch.fresh [] =
        .ok (false, s1, (List.range 1).map (fun j => decodeEntry (truncReply j))) ∧
      s1.xfers = Watch.fresh.xfers + (1 + 2) ∧
      sentCommands s1.log =
        sentCommands Watch.fresh.log ++ ReadFirst :: List.replicate (1 + 1) ReadNext :=
  C14_bad_entry_reply_aborts truncDevice Watch.fresh [] [] truncReply 1
    (by decide) (by decide) (by decide) (Or.inr (by decide))

/-- C15: when the begin-enumeration exchange is accepted and each of the 1000 next-entry
exchanges delivers a 22-byte reply whose byte 20 is not 1, `ReadDirectory` returns `true`
with exactly 1000 records after one begin command and exactly 1000 next-entry
commands; and whatever the device does, a call of `ReadDirectory` sends at most 1001
commands. -/
theorem C15_directory_cap (dev : Device) (s : Watch) (files : List TomTomFile)
    (r0 : List Nat) (r : Nat → List Nat)
    (hfirst : Accepted (dev s.xfers) ReadFirst ((s.counter + 1) % 256) r0)
    (hacc : ∀ j, j < 1000 →
      Accepted (dev (s.xfers + 1 + j)) ReadNext ((s.counter + 1 + j + 1) % 256) (r j) ∧
      (r j).length = 22 ∧ (r j).getD 20 0 ≠ 1) :
    (∃ s1, ReadDirectory dev s files =
        .ok (true, s1, (List.range 1000).map (fun j => decodeEntry (r j))) ∧
      ((List.range 1000).map (fun j => decodeEntry (r j))).length = 1000 ∧
      sentCommands s1.log = sentCommands s.log ++ ReadFirst :: List.replicate 1000 ReadNext) ∧
    (∀ (dev2 : Device) (s2 : Watch) (files2 : List TomTomFile),
      (sentCommands (stateAfter (ReadDirectory dev2 s2 files2)).log).length ≤
        (sentCommands s2.log).length + 1001) := by
  refine ⟨?_, fun dev2 s2 files2 => ReadDirectory_bound dev2 s2 files2⟩
  have hsend := SendCommand_accepted dev s ReadFirst [] r0 (by decide) hfirst
  have hacc1 : ∀ j, j < 1000 →
      Accepted (dev ((s.exchanged ReadFirst).xfers + j)) ReadNext
        (((s.exchanged ReadFirst).counter + j + 1) % 256) (r j) ∧ (r j).length = 22 ∧
        (r j).getD 20 0 ≠ 1 := by
    intro j hj
    obtain ⟨hb, hc, hd⟩ := hacc j hj
    have e2 : ((s.exchanged ReadFirst).counter + j + 1) % 256 = (s.counter + 1 + j + 1) % 256 := by
      simp only [Watch.exchanged]; omega
    rw [e2]
    exact ⟨hb, hc, hd⟩
  obtain ⟨sk, replyk, hrun, _, _, hsent⟩ := ReadDirectory_loop_prefix dev 1000 1000
    (s.exchanged ReadFirst) r0 [] r (le_refl _) hacc1
  refine ⟨sk, ?_, by rw [List.length_map, List.length_range], ?_⟩
  · rw [ReadDirectory, hsend]
    simp only [Bool.true_eq_false, if_false]
    rw [hrun, Nat.sub_self, ReadDirectory.loop, List.nil_append]
  · rw [hsent, sentCommands_exchanged, List.append_assoc, List.singleton_append]

/-- C15, instance: a device that answers every next-entry command with the same entry. -/
theorem C15_directory_cap_witness :
    (∃ s1, ReadDirectory endlessDevice Watch.fresh [] =
        .ok (true, s1, (List.range 1000).map (fun _ => decodeEntry (dirEntry 0x91 0 0 0))) ∧
      ((List.range 1000).map (fun _ => decodeEntry (dirEntry 0x91 0 0 0))).length = 1000 ∧
      sentCommands s1.log =
        sentCommands Watch.fresh.log ++ ReadFirst :: List.replicate 1000 ReadNext) ∧
    (∀ (dev2 : Device) (s2 : Watch) (files2 : List TomTomFile),
      (sentCommands (stateAfter (ReadDirectory dev2 s2 files2)).log).length ≤
        (sentCommands s2.log).length + 1001) :=
  C15_directory_cap endlessDevice Watch.fresh [] (dirEntry 0x91 0 0 0)
    (fun _ => dirEntry 0x91 0 0 0) (by decide)
    (fun j _ => ⟨Accepted_of_frame _ ReadNext _ (dirEntry 0x91 0 0 0) (by decide) (by decide)
      rfl (by simp [endlessDevice, Watch.fresh, ReadNext]) rfl rfl, rfl,
      by show (dirEntry 0x91 0 0 0).getD 20 0 ≠ 1; decide⟩)

/-- C16, as stated, fails: with the entry for `{id: 0x91000001, length: 0}` followed by
the end marker, `ReadDirectory` returns `true` with a list that holds that record, and
`ReadFiles` reads that one file. -/
theorem C16_empty_file_listed_counterexample :
    ReadDirectory emptyFileDevice Watch.fresh [] =
      .ok (true, ((Watch.fresh.exchanged ReadFirst).exchanged ReadNext).exchanged ReadNext,
        [⟨0x91000001, 0⟩]) ∧
    ([⟨0x91000001, 0⟩] : List TomTomFile) ≠ [] ∧
    ReadFiles true 0 emptyFileDevice goodDisk false =
      .ok (true, (((((Watch.fresh.exchanged ReadFirst).exchanged ReadNext).exchanged
        ReadNext).exchanged (open_file1 0x91000001)).exchanged
        (open_file2 0x91000001)).exchanged (close_file 0x91000001),
        [(⟨0x91000001, 0⟩, [])]) := by
  exact ⟨by decide, by decide, by decide⟩

/-- C16, amended: when the begin command is accepted and the directory replies are one
22-byte entry that decodes to `{id: 0x91000001, length: 0}` followed by a 22-byte reply
with the end marker, `ReadDirectory` returns `true` with the list holding exactly that
one record; and when moreover both opens are accepted, the close exchange is accepted
or turned down and the file can be written, `ReadFiles` returns `true` having read that
one file: it sends the two opens, no read command and the close, and the file content
is empty. -/
theorem C16_empty_file_listed (dev : Device) (files : List TomTomFile)
    (r0 e last : List Nat)
    (hfirst : Accepted (dev 0) ReadFirst 1 r0)
    (hentry : Accepted (dev 1) ReadNext 2 e ∧ e.length = 22 ∧ e.getD 20 0 ≠ 1 ∧
      decodeEntry e = ⟨0x91000001, 0⟩)
    (hlast : Accepted (dev 2) ReadNext 3 last ∧ last.length = 22 ∧ last.getD 20 0 = 1) :
    ReadDirectory dev Watch.fresh files =
      .ok (true, ((Watch.fresh.exchanged ReadFirst).exchanged ReadNext).exchanged ReadNext,
        [⟨0x91000001, 0⟩]) ∧
    (∀ (fuel : Nat) (disk : TomTomFile → List Nat → Bool) (extract_all : Bool)
        (r1 r2 rc : List Nat),
      Accepted (dev 3) (open_file1 0x91000001) 4 r1 →
      Accepted (dev 4) (open_file2 0x91000001) 5 r2 →
      (Accepted (dev 5) (close_file 0x91000001) 6 rc ∨
        Rejected (dev 5) (close_file 0x91000001) 6) →
      disk ⟨0x91000001, 0⟩ [] = true →
      ∃ s2, ReadFiles true fuel dev disk extract_all =
          .ok (true, s2, [(⟨0x91000001, 0⟩, [])]) ∧
        sentCommands s2.log = [ReadFirst, ReadNext, ReadNext, open_file1 0x91000001,
          open_file2 0x91000001, close_file 0x91000001]) := by
  obtain ⟨he, hel, he20, hdec⟩ := hentry
  obtain ⟨hl, hll, hl20⟩ := hlast
  have hs0 := SendCommand_accepted dev Watch.fresh ReadFirst [] r0 (by decide) hfirst
  have hs1 := SendCommand_accepted dev (Watch.fresh.exchanged ReadFirst) ReadNext r0 e
    (by decide) he
  have hs2 := SendCommand_accepted dev ((Watch.fresh.exchanged ReadFirst).exchanged ReadNext)
    ReadNext e last (by decide) hl
  have e1000 : (1000 : Nat) = 998 + 1 + 1 := rfl
  have hdir : ∀ fl, ReadDirectory dev Watch.fresh fl =
      .ok (true, ((Watch.fresh.exchanged ReadFirst).exchanged ReadNext).exchanged ReadNext,
        [⟨0x91000001, 0⟩]) := by
    intro fl
    rw [ReadDirectory, hs0]
    simp only [Bool.true_eq_false, if_false]
    rw [e1000, ReadDirectory.loop, hs1]
    simp only [hel, he20, ne_eq, not_true_eq_false, or_self, if_false, Bool.true_eq_false]
    rw [ReadDirectory.loop, hs2]
    simp only [hll, hl20, ne_eq, not_true_eq_false, or_self, if_false, if_true,
      Bool.true_eq_false, hdec, List.nil_append]
  refine ⟨hdir files, ?_⟩
  intro fuel disk extract_all r1 r2 rc h3 h4 h5 hdisk
  have hs3 := SendCommand_accepted dev
    (((Watch.fresh.exchanged ReadFirst).exchanged ReadNext).exchanged ReadNext)
    (open_file1 0x91000001) [] r1 (by decide) h3
  have hs4 := SendCommand_accepted dev
    ((((Watch.fresh.exchanged ReadFirst).exchanged ReadNext).exchanged ReadNext).exchanged
      (open_file1 0x91000001))
    (open_file2 0x91000001) r1 r2 (by decide) h4
  have hread : ReadFile fuel dev
      (((Watch.fresh.exchanged ReadFirst).exchanged ReadNext).exchanged ReadNext)
      ⟨0x91000001, 0⟩ [] =
      .ok (true, ((((Watch.fresh.exchanged ReadFirst).exchanged ReadNext).exchanged
        ReadNext).exchanged (open_file1 0x91000001)).exchanged (open_file2 0x91000001), []) := by
    rw [ReadFile, hs3]
    simp only [Bool.true_eq_false, if_false, hs4]
    exact ReadFile_loop_done dev _ fuel _ _ _ _ _ (by simp)
  have hsel : ¬ (extract_all = false ∧ ((⟨0x91000001, 0⟩ : TomTomFile).id &&& 0xFF000000) ≠
      0x91000000) := fun h => h.2 (by decide)
  have hclose := CloseFile_sent dev
    (((((Watch.fresh.exchanged ReadFirst).exchanged ReadNext).exchanged
        ReadNext).exchanged (open_file1 0x91000001)).exchanged (open_file2 0x91000001))
    0x91000001
  have hnofault : ∃ b s2, CloseFile dev
      (((((Watch.fresh.exchanged ReadFirst).exchanged ReadNext).exchanged
        ReadNext).exchanged (open_file1 0x91000001)).exchanged (open_file2 0x91000001))
      0x91000001 = .ok (b, s2, ()) := by
    rw [CloseFile]
    rcases h5 with h5 | h5
    · rw [SendCommand_accepted dev _ (close_file 0x91000001) [] rc (by decide) h5]
      exact ⟨true, _, rfl⟩
    · obtain ⟨s2, hs, _⟩ := SendCommand_rejected dev
        (((((Watch.fresh.exchanged ReadFirst).exchanged ReadNext).exchanged
          ReadNext).exchanged (open_file1 0x91000001)).exchanged (open_file2 0x91000001))
        (close_file 0x91000001) [] (by decide) h5
      rw [hs]
      exact ⟨false, s2, rfl⟩
  obtain ⟨b, s2, hcl⟩ := hnofault
  rw [hcl] at hclose
  simp only [stateAfter] at hclose
  refine ⟨s2, ?_, ?_⟩
  · rw [ReadFiles]
    simp only [Bool.true_eq_false, if_false, hdir []]
    rw [ReadFiles.loop, if_neg hsel, hread]
    simp only [Bool.true_eq_false, if_false, hcl, hdisk]
    rfl
  · rw [hclose]
    simp only [sentCommands_exchanged]
    simp [sentCommands, Watch.fresh]

/-- C16 amended, instance: the device `emptyFileDevice`. -/
theorem C16_empty_file_listed_witness :
    ReadDirectory emptyFileDevice Watch.fresh [] =
      .ok (true, ((Watch.fresh.exchanged ReadFirst).exchanged ReadNext).exchanged ReadNext,
        [⟨0x91000001, 0⟩]) ∧
    (∀ (fuel : Nat) (disk : TomTomFile → List Nat → Bool) (extract_all : Bool)
        (r1 r2 rc : List Nat),
      Accepted (emptyFileDevice 3) (open_file1 0x91000001) 4 r1 →
      Accepted (emptyFileDevice 4) (open_file2 0x91000001) 5 r2 →
      (Accepted (emptyFileDevice 5) (close_file 0x91000001) 6 rc ∨
        Rejected (emptyFileDevice 5) (close_file 0x91000001) 6) →
      disk ⟨0x91000001, 0⟩ [] = true →
      ∃ s2, ReadFiles true fuel emptyFileDevice disk extract_all =
          .ok (true, s2, [(⟨0x91000001, 0⟩, [])]) ∧
        sentCommands s2.log = [ReadFirst, ReadNext, ReadNext, open_file1 0x91000001,
          open_file2 0x91000001, close_file 0x91000001]) :=
  C16_empty_file_listed emptyFileDevice [] [] emptyFileEntry (dirEntry 0 0 0 1)
    (by decide) (by decide) (by decide)

/-- C17: the directory holds the one file `0x12000001`; started with `--all`, the program
enumerates the directory and extracts nothing (no open command is sent), whereas
`ReadFiles` called with `extract_all = true` extracts that file. -/
theorem C17_all_option_ignored :
    main true true 0 otherFileDevice goodDisk =
      .ok (true, ((Watch.fresh.exchanged ReadFirst).exchanged ReadNext).exchanged ReadNext, []) ∧
    sentCommands (((Watch.fresh.exchanged ReadFirst).exchanged ReadNext).exchanged ReadNext).log =
      [ReadFirst, ReadNext, ReadNext] ∧
    ReadFiles true 0 otherFileDevice goodDisk true =
      .ok (true, (((((Watch.fresh.exchanged ReadFirst).exchanged ReadNext).exchanged
        ReadNext).exchanged (open_file1 0x12000001)).exchanged
        (open_file2 0x12000001)).exchanged (close_file 0x12000001),
        [(⟨0x12000001, 0⟩, [])]) := by
  exact ⟨by decide, by decide, by decide⟩

/-- C18: for the record length `0xFFFFFFFF` and a device that answers every read with a
well-formed chunk of the size asked for, the read loop never finishes: whatever the
number of iterations allowed, `ReadFile` is still inside the loop when they are used up
(the offset `50 j mod 2^32` is always even, hence always below the length). -/
theorem C18_read_loop_diverges (fuel : Nat) :
    ∃ s1, ReadFile fuel wrapDevice Watch.fresh ⟨0x91000001, 4294967295⟩ [] =
      .error (Fault.fuel s1) := by
  have hs1 := SendCommand_accepted wrapDevice Watch.fresh (open_file1 0x91000001) [] []
    (by decide) (by decide)
  have hs2 := SendCommand_accepted wrapDevice (Watch.fresh.exchanged (open_file1 0x91000001))
    (open_file2 0x91000001) [] [] (by decide) (by decide)
  obtain ⟨s1, hrun⟩ := wrap_loop_diverges fuel 0
    ((Watch.fresh.exchanged (open_file1 0x91000001)).exchanged (open_file2 0x91000001)) []
    (read_command 0x91000001) [] rfl rfl rfl
  refine ⟨s1, ?_⟩
  rw [ReadFile, hs1]
  simp only [Bool.true_eq_false, if_false, hs2]
  exact hrun

/-- C19: the device sends a full 64-byte frame whose byte 1 is 62; the reply passes the
test of line 154 (62 is not above 64 + 3) although `3 + 62 > 64`, and the model stops at
the copy of line 160 because it reads past the end of the 64-byte buffer. -/
theorem C19_accepted_reply_overruns_buffer :
    (overlongDevice 0).rx.length = 64 ∧ (overlongDevice 0).rx.getD 1 0 = 62 ∧
    ¬ Rejected (overlongDevice 0) ReadNext 1 ∧
    SendCommand overlongDevice Watch.fresh ReadNext [] =
      .error (Fault.overrun (Watch.fresh.exchanged ReadNext)) := by
  decide

/-- C20: the device sends the 2-byte frame `01 00`; `SendCommand` returns `true` (with an
empty reply): the test `data[2] != counter_` reads the counter byte that the outgoing
frame left in the buffer. -/
theorem C20_two_byte_reply_accepted :
    (twoByteDevice 0).rx = [1, 0] ∧
    (rxData ReadNext 1 (twoByteDevice 0).rx).getD 2 0 = (outFrame ReadNext 1).getD 2 0 ∧
    SendCommand twoByteDevice Watch.fresh ReadNext [] =
      .ok (true, Watch.fresh.exchanged ReadNext, []) := by
  decide

end TomTom
